import Mathlib

/-!
Verification development for the hex-grid province generator
(`generate_country_provinces.py` and `assign_terrain_types.py`).

Python floating-point arithmetic is modelled as exact real arithmetic.
Every number that the generator manipulates lies in the quadratic field
ℚ(√3) (the only irrational constant is `math.sqrt(3)` in `ROW_SPACING`),
so we embed the numeric type as pairs `a + b·√3` with `a b : ℚ`, which
keeps every definition executable and every comparison decidable.
Python's `round` (banker's rounding, half to even) is modelled exactly.
-/

/-- `a + b * √3` with `a b : ℚ`: the exact-arithmetic model of the
floating-point values used by the generator. -/
structure RS where
  a : ℚ
  b : ℚ
deriving DecidableEq

namespace RS

def ofRat (q : ℚ) : RS := ⟨q, 0⟩

def ofInt (n : ℤ) : RS := ⟨(n : ℚ), 0⟩

/-- `√3` itself. -/
def sqrt3 : RS := ⟨0, 1⟩

instance : Add RS := ⟨fun x y => ⟨x.a + y.a, x.b + y.b⟩⟩
instance : Neg RS := ⟨fun x => ⟨-x.a, -x.b⟩⟩
instance : Sub RS := ⟨fun x y => ⟨x.a - y.a, x.b - y.b⟩⟩
instance : Mul RS := ⟨fun x y => ⟨x.a * y.a + 3 * x.b * y.b, x.a * y.b + x.b * y.a⟩⟩

/-- Division in ℚ(√3): multiply by the conjugate and divide by the norm. -/
instance : Div RS :=
  ⟨fun x y =>
    ⟨(x.a * y.a - 3 * x.b * y.b) / (y.a ^ 2 - 3 * y.b ^ 2),
     (x.b * y.a - x.a * y.b) / (y.a ^ 2 - 3 * y.b ^ 2)⟩⟩

/-- Decides `0 < a + b√3` by comparing `a²` with `3·b²` in the mixed-sign
cases. -/
def pos (x : RS) : Bool :=
  if 0 ≤ x.a then
    (if 0 ≤ x.b then decide (0 < x.a ∨ 0 < x.b) else decide (3 * x.b ^ 2 < x.a ^ 2))
  else
    (if 0 ≤ x.b then decide (x.a ^ 2 < 3 * x.b ^ 2) else false)

/-- Strict `<` on ℚ(√3), the model of the Python float comparison. -/
def blt (x y : RS) : Bool := pos (y - x)

/-- `≤` on ℚ(√3) (a total order, so `x ≤ y ↔ ¬ y < x`). -/
def ble (x y : RS) : Bool := !(blt y x)

/-- Fuel-bounded integer Newton iteration for the square root,
structurally recursive so that concrete proofs can evaluate it
(`Nat.sqrt` is defined by well-founded recursion and does not reduce). -/
def isqrtAux (n : ℕ) : ℕ → ℕ → ℕ
  | 0, guess => guess
  | fuel + 1, guess =>
      let next := (guess + n / guess) / 2
      if next < guess then isqrtAux n fuel next else guess

/-- `⌊√n⌋`: Newton iteration starting above the root; monotonically
decreasing, so 128 steps of fuel suffice for any `n < 2¹²⁸`. -/
def isqrt (n : ℕ) : ℕ := if n ≤ 1 then n else isqrtAux n 128 (n / 2 + 1)

/-- `⌊k·√3⌋` for an integer `k`, via `isqrt (3 k²) = ⌊√(3k²)⌋` (for
`k < 0` the value `k√3` is irrational, so `⌊k√3⌋ = -⌊|k|√3⌋ - 1`). -/
def floorMulSqrt3 (k : ℤ) : ℤ :=
  if 0 ≤ k then (isqrt (3 * k.natAbs ^ 2) : ℤ)
  else -(isqrt (3 * k.natAbs ^ 2) : ℤ) - 1

/-- `⌊a + b√3⌋`: put the value over the common denominator
`d = a.den * b.den` as `(m + k√3)/d` and use
`⌊(m + k√3)/d⌋ = ⌊(m + ⌊k√3⌋)/d⌋`. -/
def floor (x : RS) : ℤ :=
  (x.a.num * (x.b.den : ℤ) + floorMulSqrt3 (x.b.num * (x.a.den : ℤ))).fdiv
    ((x.a.den : ℤ) * (x.b.den : ℤ))

def ceil (x : RS) : ℤ := -floor (-x)

/-- Python 3 `round`: round half to even. The tie can only occur for a
rational value (`b√3` is irrational for `b ≠ 0`). -/
def pyRound (x : RS) : ℤ :=
  let f := floor x
  if blt (x + x) (ofInt (2 * f + 1)) then f
  else if blt (ofInt (2 * f + 1)) (x + x) then f + 1
  else if f % 2 = 0 then f else f + 1

/-- Python `round(x, 4)` as an exact rational. -/
def pyRound4 (x : RS) : ℚ := (pyRound (x * ofInt 10000) : ℚ) / 10000

end RS

/-! ## Hex-grid constants (from `generate_country_provinces.py`) -/

def HEX_SIZE : RS := RS.ofInt 3
def COL_SPACING : RS := HEX_SIZE * RS.ofRat 1.5
def ROW_SPACING : RS := HEX_SIZE * RS.sqrt3
def HALF_ROW : RS := ROW_SPACING / RS.ofInt 2

def WORLD_WIDTH : RS := RS.ofInt 9000
def WORLD_HEIGHT : RS := RS.ofInt 3300
def MAX_LAT : RS := RS.ofRat 72
def MIN_LAT : RS := RS.ofRat (-60)
def MAX_LNG : RS := RS.ofRat 180
def MIN_LNG : RS := RS.ofRat (-180)

def LAT_SPAN : RS := MAX_LAT - MIN_LAT
def LNG_SPAN : RS := MAX_LNG - MIN_LNG

/-! ## Coordinate helpers -/

def lat_lng_to_pixel (lat lng : RS) : RS × RS :=
  ((lng - MIN_LNG) / LNG_SPAN * WORLD_WIDTH,
   (MAX_LAT - lat) / LAT_SPAN * WORLD_HEIGHT)

def pixel_to_lat_lng (px py : RS) : RS × RS :=
  (MAX_LAT - py / WORLD_HEIGHT * LAT_SPAN,
   MIN_LNG + px / WORLD_WIDTH * LNG_SPAN)

/-- Convert world-pixel centre to axial hex `(q, r)` coordinates. -/
def pixel_to_axial (px py : RS) : ℤ × ℤ :=
  (RS.pyRound (RS.ofRat (2 / 3) * px / HEX_SIZE),
   RS.pyRound ((RS.ofRat (-1 / 3) * px + RS.sqrt3 / RS.ofRat 3 * py) / HEX_SIZE))

/-- Snap a lat/lng to its nearest pixel-grid cell `(col, row)`. -/
def lat_lng_to_col_row (lat lng : RS) : ℤ × ℤ :=
  let px := (lat_lng_to_pixel lat lng).1
  let py := (lat_lng_to_pixel lat lng).2
  let col := RS.pyRound (px / COL_SPACING)
  let offset := if col % 2 == 1 then HALF_ROW else RS.ofRat 0
  let row := RS.pyRound ((py - offset) / ROW_SPACING)
  (col, row)

/-! ## Point-in-polygon (`_ray_cast`, `make_point_in_polygon`)

The optional `shapely` import is an external library that is absent here,
so the generator uses the pure ray-casting fallback; that fallback is what
we embed. -/

/-- Ray-casting point-in-polygon test (the pure-Python fallback).
The short-circuiting `and` of the source means the division is never
reached when `yi = yj`; division in `RS` is total, so the `&&` below has
the same value in every case. -/
def ray_cast (point : RS × RS) (polygon : List (RS × RS)) : Bool :=
  let x := point.1
  let y := point.2
  let n := polygon.length
  (List.range n).foldl
    (fun inside i =>
      let j := if i = 0 then n - 1 else i - 1
      let pI := polygon.getD i (RS.ofRat 0, RS.ofRat 0)
      let pJ := polygon.getD j (RS.ofRat 0, RS.ofRat 0)
      if (RS.blt y pI.2 != RS.blt y pJ.2) &&
          RS.blt x ((pJ.1 - pI.1) * (y - pI.2) / (pJ.2 - pI.2) + pI.1) then
        !inside
      else inside)
    false

/-- `make_point_in_polygon` without `shapely`: close over the ring and
ray-cast.  GeoJSON vertices are `[lng, lat, ...]` arrays; we model a
vertex as its first two components directly. -/
def make_point_in_polygon (coords : List (ℚ × ℚ)) : RS → RS → Bool :=
  fun lng lat =>
    ray_cast (lng, lat) (coords.map (fun c => (RS.ofRat c.1, RS.ofRat c.2)))

/-- A GeoJSON geometry: `Polygon` (list of rings) or `MultiPolygon`
(list of polygons, each a list of rings). -/
inductive Geometry where
  | polygon (coordinates : List (List (ℚ × ℚ)))
  | multiPolygon (coordinates : List (List (List (ℚ × ℚ))))
deriving DecidableEq

/-- A GeoJSON feature (only its geometry is read by the generator). -/
structure GeoFeature where
  geometry : Geometry
deriving DecidableEq

/-- The boundary document: `FeatureCollection`, `Feature`, or a bare
geometry (the three `gj["type"]` cases of the source). -/
inductive GeoDoc where
  | featureCollection (features : List GeoFeature)
  | feature (geometry : Geometry)
  | bare (geometry : Geometry)
deriving DecidableEq

/-- Geometry selection: first feature of a `FeatureCollection` (an empty
collection raises in Python, modelled as `none`), the geometry of a
`Feature`, or the document itself. -/
def selectGeometry : GeoDoc → Option Geometry
  | .featureCollection fs => fs.head?.map (fun f => f.geometry)
  | .feature g => some g
  | .bare g => some g

/-- Outer ring of one MultiPolygon member (`poly[0]`). -/
def outerRing (poly : List (List (ℚ × ℚ))) : List (ℚ × ℚ) := poly.headD []

/-- Build the point-in-boundary test from a geometry.  In the source the
MultiPolygon branch first builds a throwaway test over the concatenated
outer rings and immediately overwrites it (with `shapely` absent) by the
union of per-member ray casts; only the final value is observable, so
only it is embedded.  Indexing an empty `coordinates` (or an empty
member) raises in Python, modelled as `none`. -/
def buildPointInPolygon : Geometry → Option (RS → RS → Bool)
  | .multiPolygon coords =>
      if coords.all (fun poly => !poly.isEmpty) then
        some (fun lng lat =>
          coords.any (fun poly =>
            ray_cast (lng, lat)
              ((outerRing poly).map (fun c => (RS.ofRat c.1, RS.ofRat c.2)))))
      else none
  | .polygon coords => coords.head?.map (fun ring => make_point_in_polygon ring)

/-! ## Sub-region and county lookups -/

/-- One sub-region entry: optional bounds (the source reads them with
`sr.get(..., default)`), plus the attribute payload. -/
structure SubRegion where
  lat_min : Option ℚ
  lat_max : Option ℚ
  lng_min : Option ℚ
  lng_max : Option ℚ
  culture : String
  religion : String
  trade_goods : List String
deriving DecidableEq

/-- The containment test of `get_sub_region`, with the source's default
bounds (-90, 90, -180, 180). -/
def subRegionContains (lat lng : RS) (sr : SubRegion) : Bool :=
  RS.ble (RS.ofRat (sr.lat_min.getD (-90))) lat &&
  RS.ble lat (RS.ofRat (sr.lat_max.getD 90)) &&
  RS.ble (RS.ofRat (sr.lng_min.getD (-180))) lng &&
  RS.ble lng (RS.ofRat (sr.lng_max.getD 180))

/-- The `for` scan of `get_sub_region`: first containing entry. -/
def findSubRegion (lat lng : RS) : List SubRegion → Option SubRegion
  | [] => none
  | sr :: rest =>
      if subRegionContains lat lng sr then some sr else findSubRegion lat lng rest

/-- `get_sub_region`: first entry whose bounds contain the point, else the
last entry (`sub_regions[-1]`; indexing an empty list raises in Python,
modelled as `none`). -/
def get_sub_region (lat lng : RS) (sub_regions : List SubRegion) : Option SubRegion :=
  match findSubRegion lat lng sub_regions with
  | some sr => some sr
  | none => sub_regions.getLast?

/-- One county entry: required bounds (the source indexes them with
`c[...]`) and a name. -/
structure County where
  name : String
  lat_min : ℚ
  lat_max : ℚ
  lng_min : ℚ
  lng_max : ℚ
deriving DecidableEq

def countyContains (lat lng : RS) (c : County) : Bool :=
  RS.ble (RS.ofRat c.lat_min) lat && RS.ble lat (RS.ofRat c.lat_max) &&
  RS.ble (RS.ofRat c.lng_min) lng && RS.ble lng (RS.ofRat c.lng_max)

/-- `get_county_name`: name of the first county whose bounding box
contains the point, else the literal `"Unknown"`. -/
def get_county_name (lat lng : RS) : List County → String
  | [] => "Unknown"
  | c :: rest =>
      if countyContains lat lng c then c.name else get_county_name lat lng rest

/-! ## Terrain assignment (`assign_terrain_types.py`)

Weighted terrain tables.  Python dicts preserve insertion order and are
only scanned in that order here, so they are modelled as association
lists.  The source's `CONTINENT_TERRAIN['africa']` dict literal repeats
the key `'flatlands'`; Python keeps the first position with the last
value, which the list below reproduces. -/

def REGION_TERRAIN : List (String × List (String × ℕ)) := [
  ("anatolia", [("hills", 40), ("mountains", 20), ("farmlands", 30), ("flatlands", 10)]),
  ("balkans", [("hills", 40), ("mountains", 30), ("farmlands", 20), ("forest", 10)]),
  ("british_isles", [("hills", 30), ("farmlands", 30), ("forest", 20), ("bog", 20)]),
  ("central_europe", [("farmlands", 35), ("hills", 30), ("forest", 25), ("mountains", 10)]),
  ("eastern_europe", [("flatlands", 40), ("farmlands", 30), ("forest", 25), ("bog", 5)]),
  ("france", [("farmlands", 40), ("forest", 30), ("hills", 20), ("mountains", 10)]),
  ("hanseatic", [("farmlands", 40), ("forest", 30), ("flatlands", 20), ("bog", 10)]),
  ("holy_roman_empire", [("farmlands", 30), ("hills", 30), ("forest", 25), ("mountains", 15)]),
  ("iberia", [("hills", 40), ("farmlands", 30), ("flatlands", 20), ("mountains", 10)]),
  ("italy", [("hills", 40), ("farmlands", 35), ("mountains", 15), ("flatlands", 10)]),
  ("low_countries", [("farmlands", 55), ("flatlands", 30), ("bog", 15)]),
  ("poland", [("flatlands", 45), ("farmlands", 35), ("forest", 15), ("bog", 5)]),
  ("russia", [("forest", 45), ("flatlands", 35), ("bog", 15), ("hills", 5)]),
  ("scandinavia", [("forest", 35), ("hills", 30), ("mountains", 20), ("bog", 15)]),
  ("arabia", [("flatlands", 60), ("hills", 30), ("farmlands", 10)]),
  ("levant", [("hills", 45), ("flatlands", 30), ("farmlands", 20), ("mountains", 5)]),
  ("mesopotamia", [("flatlands", 50), ("farmlands", 40), ("swamp", 10)]),
  ("north_africa", [("flatlands", 60), ("hills", 25), ("mountains", 15)]),
  ("northeast_africa", [("hills", 40), ("mountains", 30), ("flatlands", 30)]),
  ("persia", [("hills", 40), ("flatlands", 35), ("mountains", 20), ("farmlands", 5)]),
  ("central_africa", [("forest", 70), ("swamp", 15), ("hills", 15)]),
  ("east_africa", [("hills", 40), ("flatlands", 35), ("mountains", 15), ("forest", 10)]),
  ("madagascar", [("forest", 50), ("hills", 35), ("flatlands", 15)]),
  ("southern_africa", [("flatlands", 45), ("hills", 30), ("farmlands", 15), ("forest", 10)]),
  ("west_africa", [("forest", 45), ("flatlands", 30), ("hills", 15), ("swamp", 10)]),
  ("burma", [("forest", 50), ("hills", 30), ("mountains", 20)]),
  ("india_east", [("farmlands", 40), ("hills", 30), ("forest", 20), ("swamp", 10)]),
  ("india_interior", [("hills", 35), ("mountains", 25), ("farmlands", 25), ("forest", 15)]),
  ("india_west", [("farmlands", 40), ("hills", 30), ("flatlands", 20), ("forest", 10)]),
  ("indochina", [("forest", 50), ("hills", 30), ("mountains", 20)]),
  ("malaya", [("forest", 60), ("hills", 30), ("swamp", 10)]),
  ("siam", [("forest", 50), ("hills", 30), ("flatlands", 15), ("swamp", 5)]),
  ("south_asia", [("farmlands", 35), ("hills", 30), ("forest", 20), ("flatlands", 15)]),
  ("southeast_asia", [("forest", 50), ("hills", 30), ("mountains", 15), ("swamp", 5)]),
  ("china", [("farmlands", 30), ("hills", 30), ("mountains", 20), ("forest", 20)]),
  ("central_asia", [("flatlands", 60), ("hills", 25), ("mountains", 15)]),
  ("east_asia", [("hills", 35), ("farmlands", 30), ("mountains", 20), ("forest", 15)]),
  ("japan", [("hills", 40), ("mountains", 35), ("forest", 20), ("farmlands", 5)]),
  ("korea", [("hills", 45), ("mountains", 30), ("forest", 20), ("farmlands", 5)]),
  ("caribbean", [("hills", 40), ("flatlands", 30), ("forest", 20), ("beach", 10)]),
  ("central_america", [("forest", 50), ("hills", 30), ("mountains", 20)]),
  ("great_lakes", [("forest", 50), ("flatlands", 30), ("hills", 20)]),
  ("mexico", [("hills", 35), ("mountains", 30), ("flatlands", 20), ("forest", 15)]),
  ("north_america", [("forest", 40), ("flatlands", 35), ("hills", 20), ("bog", 5)]),
  ("south_america", [("forest", 40), ("mountains", 25), ("hills", 20), ("swamp", 15)]),
  ("gulf_of_mexico", [("beach", 30), ("flatlands", 30), ("swamp", 25), ("forest", 15)]),
  ("australia", [("flatlands", 50), ("hills", 30), ("farmlands", 15), ("forest", 5)]),
  ("new_guinea", [("forest", 60), ("mountains", 25), ("swamp", 15)]),
  ("new_zealand", [("hills", 40), ("mountains", 30), ("forest", 20), ("farmlands", 10)]),
  ("pacific_islands", [("hills", 40), ("forest", 35), ("beach", 25)]),
  ("borneo", [("forest", 55), ("hills", 30), ("swamp", 15)]),
  ("celebes", [("forest", 50), ("hills", 35), ("mountains", 15)]),
  ("java", [("hills", 40), ("forest", 35), ("farmlands", 20), ("swamp", 5)]),
  ("philippines", [("hills", 50), ("forest", 35), ("mountains", 15)]),
  ("spice_islands", [("forest", 50), ("hills", 35), ("mountains", 15)]),
  ("sumatra", [("forest", 50), ("swamp", 25), ("hills", 25)]),
  ("arabian_sea", [("beach", 50), ("hills", 30), ("flatlands", 20)]),
  ("atlantic", [("beach", 60), ("flatlands", 40)]),
  ("baltic", [("beach", 40), ("flatlands", 35), ("forest", 25)]),
  ("bay_of_bengal", [("beach", 50), ("flatlands", 30), ("forest", 20)]),
  ("black_sea", [("beach", 50), ("flatlands", 30), ("hills", 20)]),
  ("caspian", [("flatlands", 60), ("hills", 40)]),
  ("north_sea", [("beach", 40), ("flatlands", 35), ("farmlands", 25)]),
  ("persian_gulf", [("flatlands", 60), ("hills", 40)]),
  ("red_sea", [("hills", 50), ("flatlands", 50)]),
  ("south_china_sea", [("beach", 50), ("hills", 30), ("forest", 20)])
]

def CONTINENT_TERRAIN : List (String × List (String × ℕ)) := [
  ("europe", [("farmlands", 35), ("hills", 30), ("forest", 25), ("flatlands", 10)]),
  ("africa", [("flatlands", 10), ("hills", 30), ("forest", 20)]),
  ("americas", [("forest", 40), ("hills", 30), ("flatlands", 20), ("mountains", 10)]),
  ("asia", [("hills", 35), ("farmlands", 25), ("forest", 25), ("flatlands", 15)]),
  ("oceania", [("hills", 40), ("forest", 30), ("flatlands", 20), ("mountains", 10)])
]

def DEFAULT_TERRAIN : List (String × ℕ) :=
  [("hills", 30), ("flatlands", 30), ("forest", 25), ("farmlands", 15)]

def SETTLED_TIERS : List String := ["village", "town", "city"]

def FARMLANDS_BOOST : ℕ := 20

/-! ## Model of CPython's `random` module

Modelled from the spec: the terrain classifier is "a simple weighted
lottery" over a pseudo-random stream that is "fixed-seed" — seeded once
at module import by `random.seed(42)`.  The stream itself (CPython's
Mersenne Twister MT19937 plus the `getrandbits`-based rejection sampling
behind `randint`) is library code that is not part of `src/`; it is
reproduced here exactly so that the seeded draws can be evaluated.

The 624-word state array is packed into a single natural number,
32 bits per word. -/

def U32 : ℕ := 4294967296

/-- Word `i` of the packed state. -/
def mtGet (w i : ℕ) : ℕ := (w >>> (32 * i)) % U32

/-- Replace word `i` of the packed state by `v` (with `v < 2^32`). -/
def mtSet (w i v : ℕ) : ℕ := w - (mtGet w i) <<< (32 * i) + v <<< (32 * i)

/-- Strictness helper: force a natural number to a literal before
passing it on, so that the seeding and twist loops below evaluate with
fuel-bounded stack depth inside proofs. -/
def withForced {α : Type} (n : ℕ) (k : ℕ → α) : α :=
  match n with
  | 0 => k 0
  | m + 1 => k (m + 1)

/-- The fill loop of `init_genrand`. -/
def initGenrandLoop : ℕ → ℕ → ℕ → ℕ
  | 0, w, _ => w
  | fuel + 1, w, i =>
      let prev := mtGet w (i - 1)
      withForced (mtSet w i ((1812433253 * (prev ^^^ (prev >>> 30)) + i) % U32)) (fun w2 =>
        withForced (i + 1) (fun i2 => initGenrandLoop fuel w2 i2))

/-- `init_genrand`: fill the state from a 32-bit seed. -/
def init_genrand (s : ℕ) : ℕ := initGenrandLoop 623 (s % U32) 1

/-- First mixing pass of `init_by_array` (multiplier 1664525, key and
key index added); returns the state and the running index. -/
def seedPass1 (key : List ℕ) (keylen : ℕ) : ℕ → ℕ → ℕ → ℕ → ℕ × ℕ
  | 0, w, i, _ => (w, i)
  | fuel + 1, w, i, j =>
      let prev := mtGet w (i - 1)
      let v := ((mtGet w i ^^^ ((prev ^^^ (prev >>> 30)) * 1664525 % U32))
                  + key.getD j 0 + j) % U32
      let w2 := mtSet w i v
      let i2 := i + 1
      let j2 := j + 1
      let wi : ℕ × ℕ := if i2 ≥ 624 then (mtSet w2 0 (mtGet w2 623), 1) else (w2, i2)
      withForced wi.1 (fun w3 =>
        withForced wi.2 (fun i3 =>
          withForced (if j2 ≥ keylen then 0 else j2) (fun j3 =>
            seedPass1 key keylen fuel w3 i3 j3)))

/-- Second mixing pass of `init_by_array` (multiplier 1566083941, index
subtracted). -/
def seedPass2 : ℕ → ℕ → ℕ → ℕ
  | 0, w, _ => w
  | fuel + 1, w, i =>
      let prev := mtGet w (i - 1)
      let v := ((mtGet w i ^^^ ((prev ^^^ (prev >>> 30)) * 1566083941 % U32)) + U32 - i) % U32
      let w2 := mtSet w i v
      let i2 := i + 1
      let wi : ℕ × ℕ := if i2 ≥ 624 then (mtSet w2 0 (mtGet w2 623), 1) else (w2, i2)
      withForced wi.1 (fun w3 => withForced wi.2 (fun i3 => seedPass2 fuel w3 i3))

/-- `init_by_array`: CPython's seeding for integer seeds (the seed's
32-bit little-endian digits form the key; `seed(42)` gives `[42]`). -/
def init_by_array (key : List ℕ) : ℕ :=
  let n := 624
  let keylen := key.length
  let w0 := init_genrand 19650218
  let p1 := seedPass1 key keylen (max n keylen) w0 1 0
  let w2 := seedPass2 (n - 1) p1.1 p1.2
  mtSet w2 0 2147483648

/-- The generator state: packed word array plus the next-word index. -/
structure MTState where
  words : ℕ
  mti : ℕ
deriving DecidableEq

/-- The state right after `import random; random.seed(42)` (the
module-level seeding in `assign_terrain_types.py`).  The index 624
forces a twist on the first draw, as in CPython. -/
def seededState : MTState := ⟨init_by_array [42], 624⟩

/-- The body of one twist step at index `i`. -/
def twistStep (w i : ℕ) : ℕ :=
  let y := ((mtGet w i) &&& 2147483648) ||| ((mtGet w ((i + 1) % 624)) &&& 2147483647)
  mtSet w i ((mtGet w ((i + 397) % 624)) ^^^ (y >>> 1) ^^^
    (if y % 2 = 1 then 2567483615 else 0))

/-- The twist loop (in place, as in the C implementation: later words
read already-updated earlier words). -/
def twistLoop : ℕ → ℕ → ℕ → ℕ
  | 0, w, _ => w
  | fuel + 1, w, i =>
      withForced (twistStep w i) (fun w2 =>
        withForced (i + 1) (fun i2 => twistLoop fuel w2 i2))

/-- One full regeneration sweep of the 624-word state. -/
def mtTwist (w : ℕ) : ℕ := twistLoop 624 w 0

/-- `genrand_uint32`: twist when exhausted, then temper and emit one
32-bit word. -/
def genrand_uint32 (s : MTState) : ℕ × MTState :=
  let s := if s.mti ≥ 624 then ⟨mtTwist s.words, 0⟩ else s
  let y := mtGet s.words s.mti
  let y := y ^^^ (y >>> 11)
  let y := y ^^^ ((y <<< 7) &&& 2636928640)
  let y := y ^^^ ((y <<< 15) &&& 4022730752)
  let y := y ^^^ (y >>> 18)
  (y, ⟨s.words, s.mti + 1⟩)

/-- `getrandbits(k)` for `k ≤ 32`: the top `k` bits of one word. -/
def getrandbits (k : ℕ) (s : MTState) : ℕ × MTState :=
  let r := genrand_uint32 s
  (r.1 >>> (32 - k), r.2)

/-- Rejection loop of `_randbelow_with_getrandbits`.  The `while` loop is
given fuel; exhausting it (probability ≤ 2⁻¹⁰⁰⁰ per draw) returns 0. -/
def randbelowAux (n k : ℕ) : ℕ → MTState → ℕ × MTState
  | 0, s => (0, s)
  | fuel + 1, s =>
      let r := getrandbits k s
      if r.1 ≥ n then randbelowAux n k fuel r.2 else r

/-- `_randbelow(n)` for `n ≥ 1`: draw `bit_length(n)` bits, rejecting
values `≥ n`. -/
def randbelow (n : ℕ) (s : MTState) : ℕ × MTState :=
  randbelowAux n (if n = 0 then 0 else n.log2 + 1) 1000 s

/-- `random.randint(a, b)` = `a + _randbelow(b - a + 1)`. -/
def randint (lo hi : ℕ) (s : MTState) : ℕ × MTState :=
  let r := randbelow (hi + 1 - lo) s
  (lo + r.1, r.2)

/-! ## `weighted_choice` and `assign_terrain` -/

/-- The cumulative scan of `weighted_choice`: first key whose running
total reaches the draw. -/
def wcScan (r : ℕ) (cumulative : ℕ) : List (String × ℕ) → Option String
  | [] => none
  | (key, weight) :: rest =>
      let c := cumulative + weight
      if r ≤ c then some key else wcScan r c rest

/-- `weighted_choice`: draw `randint(1, total)` and scan.  The fallback
`list(weights.keys())[-1]` raises on an empty dict in Python; since the
draw never exceeds the total the fallback is unreachable for the
non-empty tables above, and the empty case is modelled as `""`. -/
def weighted_choice (weights : List (String × ℕ)) (g : MTState) : String × MTState :=
  let total := (weights.map (fun kv => kv.2)).sum
  let r := randint 1 total g
  ((wcScan r.1 0 weights).getD ((weights.map (fun kv => kv.1)).getLastD ""), r.2)

/-- The argument dict built by the generator for `assign_terrain`
(`region`, `continent`, `settlement_tier`; `assign_terrain` reads each
with `.get`, so the fields are optional). -/
structure TerrainArg where
  region : Option String
  continent : Option String
  settlement_tier : Option String
deriving DecidableEq

/-- `assign_terrain`: look up the weight table (region, then continent,
then default), boost farmlands for settled tiers when farmlands is
already an option, and draw.  `if region and region in REGION_TERRAIN`
treats `None` and `""` as falsy; `""` is no table key, so `Option.bind`
with the lookup has the same value. -/
def assign_terrain (province : TerrainArg) (g : MTState) : String × MTState :=
  let region := province.region
  let continent := province.continent
  let tier := province.settlement_tier.getD "wilderness"
  let weights :=
    match region.bind (fun r => REGION_TERRAIN.lookup r) with
    | some w => w
    | none =>
        match continent.bind (fun c => CONTINENT_TERRAIN.lookup c) with
        | some w => w
        | none => DEFAULT_TERRAIN
  let weights :=
    if SETTLED_TIERS.contains tier && (weights.lookup "farmlands").isSome then
      weights.map (fun kv => if kv.1 = "farmlands" then (kv.1, kv.2 + FARMLANDS_BOOST) else kv)
    else weights
  weighted_choice weights g

/-! ## Province records and configuration -/

/-- A province record.  Existing records may lack `lat`/`lng` (the
generator reads them with `p.get`), so those are optional; every other
field read or written by the generator is present.  `x`/`y` are the
axial coordinates (`int(p["x"])`, `int(p["y"])`). -/
structure Prov where
  id : String
  name : String
  x : ℤ
  y : ℤ
  lat : Option ℚ
  lng : Option ℚ
  continent : String
  region : String
  terrain_type : String
  settlement_tier : String
  population : ℤ
  wealth : ℤ
  trade_goods : List String
  owner_culture : String
  owner_religion : String
  development_progress : ℤ
  months_at_tier : ℤ
  development_invested : ℤ
deriving DecidableEq

/-- The search bounding box (all four fields are required by the
source). -/
structure Bbox where
  lat_min : ℚ
  lat_max : ℚ
  lng_min : ℚ
  lng_max : ℚ
deriving DecidableEq

/-- The country configuration.  `idPrefix` is the source's id prefix
string (key `id` followed by `_prefix` in the config dict); the three
defaulted keys are read with `.get`, hence optional. -/
structure Config where
  idPrefix : String
  continent : String
  region : String
  sub_regions : List SubRegion
  county_map : List County
  default_tier : Option String
  default_population : Option ℤ
  default_wealth : Option ℤ
  bbox : Bbox
deriving DecidableEq

/-- The errors `generate_provinces` can raise.  The first three model
Python exceptions from malformed input (empty feature list, empty
`coordinates`, empty sub-region table); the last two are the two
validator `RuntimeError`s, carrying the data interpolated into the
message: the offending count and the first five offending ids. -/
inductive GenError where
  | noFeature
  | badGeometry
  | emptySubRegions
  | genericTerrain (count : ℕ) (firstIds : List String)
  | noGoods (count : ℕ) (firstIds : List String)
deriving DecidableEq

/-! ## The generator (`generate_provinces`)

The terrain-assignment capability is the conditionally imported
`assign_terrain`; it is threaded as an optional stateful function over an
arbitrary state type `σ` (the shipped capability instantiates `σ` with
`MTState` and the missing-module case with `none`).  File I/O is
modelled by value passing: the function receives the current content of
`provinces.json` and reports the content after the run. -/

/-- Step 2 of the source: drop the removal-list ids (`if remove_ids:` —
`None` and `[]` both skip the filter). -/
def provincesAfterRemoval (provinces0 : List Prov) (remove_ids : Option (List String)) :
    List Prov :=
  if (remove_ids.getD []).isEmpty then provinces0
  else provinces0.filter (fun p => !(remove_ids.getD []).contains p.id)

/-- Step 3 of the source: the occupied-cell set, from every
(post-removal) province that has both `lat` and `lng`. -/
def initialOccupied (provinces : List Prov) : Finset (ℤ × ℤ) :=
  provinces.foldl
    (fun acc p =>
      match p.lat, p.lng with
      | some la, some ln => insert (lat_lng_to_col_row (RS.ofRat la) (RS.ofRat ln)) acc
      | _, _ => acc)
    ∅

/-- The `existing_axial` set: the `(x, y)` of every (post-removal)
province. -/
def initialAxial (provinces : List Prov) : Finset (ℤ × ℤ) :=
  provinces.foldl (fun acc p => insert (p.x, p.y) acc) ∅

/-- Step 5 of the source: the integer column/row ranges with a one-cell
margin. -/
def colMin (bbox : Bbox) : ℤ :=
  RS.floor ((lat_lng_to_pixel (RS.ofRat bbox.lat_max) (RS.ofRat bbox.lng_min)).1 / COL_SPACING) - 1

def colMax (bbox : Bbox) : ℤ :=
  RS.ceil ((lat_lng_to_pixel (RS.ofRat bbox.lat_min) (RS.ofRat bbox.lng_max)).1 / COL_SPACING) + 1

def rowMin (bbox : Bbox) : ℤ :=
  RS.floor ((lat_lng_to_pixel (RS.ofRat bbox.lat_max) (RS.ofRat bbox.lng_min)).2 / ROW_SPACING) - 1

def rowMax (bbox : Bbox) : ℤ :=
  RS.ceil ((lat_lng_to_pixel (RS.ofRat bbox.lat_min) (RS.ofRat bbox.lng_max)).2 / ROW_SPACING) + 1

/-- `range(lo, hi + 1)` over ℤ. -/
def intRange (lo hi : ℤ) : List ℤ :=
  (List.range (hi + 1 - lo).toNat).map (fun i => lo + Int.ofNat i)

/-- The two nested `for` loops of step 6, flattened: all `(col, row)`
cells with `col` outermost. -/
def cellList (bbox : Bbox) : List (ℤ × ℤ) :=
  (intRange (colMin bbox) (colMax bbox)).flatMap
    (fun col => (intRange (rowMin bbox) (rowMax bbox)).map (fun row => (col, row)))

/-- Hex centre of a cell in world pixels (`col * COL_SPACING`,
`row * ROW_SPACING + offset`, offset `HALF_ROW` for odd columns; Python's
`%` is Euclidean on negatives, as is Lean's `Int.emod`). -/
def cellCenter (col row : ℤ) : RS × RS :=
  (RS.ofInt col * COL_SPACING,
   RS.ofInt row * ROW_SPACING + (if col % 2 == 1 then HALF_ROW else RS.ofRat 0))

/-- Geographic coordinates of a cell's hex centre. -/
def cellLatLng (cell : ℤ × ℤ) : RS × RS :=
  pixel_to_lat_lng (cellCenter cell.1 cell.2).1 (cellCenter cell.1 cell.2).2

/-- Axial coordinates of a cell's hex centre. -/
def axialOf (cell : ℤ × ℤ) : ℤ × ℤ :=
  pixel_to_axial (cellCenter cell.1 cell.2).1 (cellCenter cell.1 cell.2).2

/-- The world-bounds guard (`px < 0 or px > WORLD_WIDTH or py < 0 or
py > WORLD_HEIGHT` skips the cell). -/
def inWorldBounds (px py : RS) : Bool :=
  !(RS.blt px (RS.ofRat 0) || RS.blt WORLD_WIDTH px ||
    RS.blt py (RS.ofRat 0) || RS.blt WORLD_HEIGHT py)

/-- The three `continue` guards of the cell loop combined: the cell is
unoccupied, its centre is inside the world, and the boundary test
accepts it. -/
def wouldEmit (pip : RS → RS → Bool) (occupied : Finset (ℤ × ℤ)) (cell : ℤ × ℤ) : Bool :=
  !(decide (cell ∈ occupied)) &&
  inWorldBounds (cellCenter cell.1 cell.2).1 (cellCenter cell.1 cell.2).2 &&
  pip (cellLatLng cell).2 (cellLatLng cell).1

/-- `f"{id_prefix}_{col}_{row}"`. -/
def mkProvId (pre : String) (col row : ℤ) : String :=
  pre ++ "_" ++ toString col ++ "_" ++ toString row

/-- The mutable loop state: the two growing sets, the county
de-duplication counters, the capability state, and the accumulated new
records. -/
structure LoopState (σ : Type) where
  occupied : Finset (ℤ × ℤ)
  existing_axial : Finset (ℤ × ℤ)
  county_counts : String → ℕ
  g : σ
  new_provinces : List Prov

/-- One iteration of the cell loop.  An unreachable `sub_regions[-1]` on
an empty table is the only statement inside the loop that can raise; the
error carries the capability state so nothing is lost on abort. -/
def cellStep {σ : Type} (cap : Option (TerrainArg → σ → String × σ)) (cfg : Config)
    (pip : RS → RS → Bool) (s : LoopState σ) (cell : ℤ × ℤ) :
    Except (GenError × σ) (LoopState σ) :=
  if wouldEmit pip s.occupied cell then
    let lat := (cellLatLng cell).1
    let lng := (cellLatLng cell).2
    let q0 := (axialOf cell).1
    let r := (axialOf cell).2
    -- Extremely rare collision — shift q by 1 to resolve (single, unchecked).
    let q := if (q0, r) ∈ s.existing_axial then q0 + 1 else q0
    match get_sub_region lat lng cfg.sub_regions with
    | none => .error (.emptySubRegions, s.g)
    | some sr =>
        let county := get_county_name lat lng cfg.county_map
        let county_counts :=
          fun nm => if nm = county then s.county_counts nm + 1 else s.county_counts nm
        let count := county_counts county
        let name := if count = 1 then county else county ++ " " ++ toString count
        let tg : String × σ :=
          match cap with
          | some f =>
              f ⟨some cfg.region, some cfg.continent, some (cfg.default_tier.getD "unsettled")⟩ s.g
          | none => ("land", s.g)
        let prov : Prov :=
          { id := mkProvId cfg.idPrefix cell.1 cell.2
            name := name
            x := q
            y := r
            lat := some (RS.pyRound4 lat)
            lng := some (RS.pyRound4 lng)
            continent := cfg.continent
            region := cfg.region
            terrain_type := tg.1
            settlement_tier := cfg.default_tier.getD "unsettled"
            population := cfg.default_population.getD 600
            wealth := cfg.default_wealth.getD 60
            trade_goods := sr.trade_goods
            owner_culture := sr.culture
            owner_religion := sr.religion
            development_progress := 0
            months_at_tier := 0
            development_invested := 0 }
        .ok { occupied := insert cell s.occupied
              existing_axial := insert (q, r) s.existing_axial
              county_counts := county_counts
              g := tg.2
              new_provinces := s.new_provinces ++ [prov] }
  else .ok s

/-- Steps 1–6 of `generate_provinces`: removal, occupancy, boundary
loading, range computation, and the generation loop; stops before the
two validator guards. -/
def runGeneration {σ : Type} (cap : Option (TerrainArg → σ → String × σ)) (boundary : GeoDoc)
    (provinces0 : List Prov) (cfg : Config) (remove_ids : Option (List String)) (g0 : σ) :
    Except (GenError × σ) (LoopState σ) :=
  let provinces := provincesAfterRemoval provinces0 remove_ids
  match selectGeometry boundary with
  | none => .error (.noFeature, g0)
  | some geom =>
      match buildPointInPolygon geom with
      | none => .error (.badGeometry, g0)
      | some pip =>
          (cellList cfg.bbox).foldlM (cellStep cap cfg pip)
            { occupied := initialOccupied provinces
              existing_axial := initialAxial provinces
              county_counts := fun _ => 0
              g := g0
              new_provinces := [] }

/-- The observable outcome of one run: the returned value or raised
error, the content of the provinces file after the run, and the
capability state afterwards (the module-level RNG persists across
runs). -/
structure GenOutcome (σ : Type) where
  result : Except GenError (List Prov)
  file : List Prov
  gFinal : σ

/-- `generate_provinces`: generation, the two validator guards, and the
write-back (skipped on `dry_run`).  On any raise the file keeps its
pre-run content — removal-list deletions are only committed by the
write. -/
def generate_provinces {σ : Type} (cap : Option (TerrainArg → σ → String × σ))
    (boundary : GeoDoc) (provinces0 : List Prov) (cfg : Config)
    (remove_ids : Option (List String)) (dry_run : Bool) (g0 : σ) : GenOutcome σ :=
  match runGeneration cap boundary provinces0 cfg remove_ids g0 with
  | .error eg => ⟨.error eg.1, provinces0, eg.2⟩
  | .ok s =>
      let generic_terrain :=
        (s.new_provinces.filter (fun p => p.terrain_type == "land")).map (fun p => p.id)
      if generic_terrain.isEmpty then
        let no_goods :=
          (s.new_provinces.filter (fun p => p.trade_goods.isEmpty)).map (fun p => p.id)
        if no_goods.isEmpty then
          ⟨.ok s.new_provinces,
           if dry_run then provinces0
           else provincesAfterRemoval provinces0 remove_ids ++ s.new_provinces,
           s.g⟩
        else ⟨.error (.noGoods no_goods.length (no_goods.take 5)), provinces0, s.g⟩
      else ⟨.error (.genericTerrain generic_terrain.length (generic_terrain.take 5)),
            provinces0, s.g⟩

/-! ## Collision-shift checker (analysis device, not part of the source)

`shiftOkAt` records whether a visited cell avoided the unchecked-shift
hazard: either the cell does not emit, or its computed axial pair is
fresh, or the single `q + 1` shift lands on a fresh pair.  Folding it
alongside the loop yields the hypothesis under which the axial-uniqueness
invariant of the spec actually holds. -/

def shiftOkAt {σ : Type} (pip : RS → RS → Bool) (s : LoopState σ) (cell : ℤ × ℤ) : Bool :=
  !(wouldEmit pip s.occupied cell) ||
  !(decide ((axialOf cell) ∈ s.existing_axial)) ||
  !(decide (((axialOf cell).1 + 1, (axialOf cell).2) ∈ s.existing_axial))

/-- `cellStep` paired with the running conjunction of `shiftOkAt`. -/
def cellStepChk {σ : Type} (cap : Option (TerrainArg → σ → String × σ)) (cfg : Config)
    (pip : RS → RS → Bool) (sb : LoopState σ × Bool) (cell : ℤ × ℤ) :
    Except (GenError × σ) (LoopState σ × Bool) :=
  (cellStep cap cfg pip sb.1 cell).map (fun s2 => (s2, sb.2 && shiftOkAt pip sb.1 cell))

/-- `runGeneration` paired with the shift checker. -/
def runGenerationChk {σ : Type} (cap : Option (TerrainArg → σ → String × σ)) (boundary : GeoDoc)
    (provinces0 : List Prov) (cfg : Config) (remove_ids : Option (List String)) (g0 : σ) :
    Except (GenError × σ) (LoopState σ × Bool) :=
  let provinces := provincesAfterRemoval provinces0 remove_ids
  match selectGeometry boundary with
  | none => .error (.noFeature, g0)
  | some geom =>
      match buildPointInPolygon geom with
      | none => .error (.badGeometry, g0)
      | some pip =>
          (cellList cfg.bbox).foldlM (cellStepChk cap cfg pip)
            ({ occupied := initialOccupied provinces
               existing_axial := initialAxial provinces
               county_counts := fun _ => 0
               g := g0
               new_provinces := [] }, true)

/-! ## Projections used by the theorem statements -/

/-- Did the generation phase complete without raising? -/
def genOk {σ : Type} : Except (GenError × σ) (LoopState σ) → Bool
  | .ok _ => true
  | .error _ => false

/-- The new-record batch of a completed generation phase. -/
def newsOf {σ : Type} : Except (GenError × σ) (LoopState σ) → List Prov
  | .ok s => s.new_provinces
  | .error _ => []

/-- Did the generation phase complete with every visited cell clear of
the unchecked-shift hazard? -/
def chkPassed {σ : Type} : Except (GenError × σ) (LoopState σ × Bool) → Bool
  | .ok sb => sb.2
  | .error _ => false

/-- Column-major (column first, then row) strict order on cells: the
order in which the generation loop visits and emits them. -/
def colMajorLT (c d : ℤ × ℤ) : Prop :=
  c.1 < d.1 ∨ (c.1 = d.1 ∧ c.2 < d.2)

/-- Row-major (row first, then column) order on cells: the order the
spec sentence asserts for the emitted records. -/
def rowMajorLE (c d : ℤ × ℤ) : Prop :=
  c.2 < d.2 ∨ (c.2 = d.2 ∧ c.1 ≤ d.1)

instance : DecidableRel colMajorLT := fun _ _ => instDecidableOr
instance : DecidableRel rowMajorLE := fun _ _ => instDecidableOr

/-- Reference renaming of the county de-duplication: given the counts
seen so far, the display name of each resolved county name in sequence
(`name` on first occurrence, `name ++ " " ++ count` afterwards). -/
def dedupNames (seen : String → ℕ) : List String → List String
  | [] => []
  | nm :: rest =>
      let k := seen nm + 1
      (if k = 1 then nm else nm ++ " " ++ toString k) ::
        dedupNames (fun s => if s = nm then seen s + 1 else seen s) rest

/-! ## Concrete fixtures

Small concrete inputs on which the generator is evaluated: a search box
in the Bering-strait area whose derived ranges are columns 38–43 and
rows 38–43, one boundary square containing exactly the hex cell
(40, 40), and one containing exactly the four cells (40, 40), (40, 41),
(41, 40), (41, 41). -/

/-- Closed square ring containing only the centre of cell (40, 40). -/
def ringOne : List (ℚ × ℚ) :=
  [(-172.9, 63.6), (-172.7, 63.6), (-172.7, 63.75), (-172.9, 63.75), (-172.9, 63.6)]

/-- Closed square ring containing the centres of cells (40, 40),
(40, 41), (41, 40) and (41, 41). -/
def ringQuad : List (ℚ × ℚ) :=
  [(-172.9, 63.3), (-172.55, 63.3), (-172.55, 63.76), (-172.9, 63.76), (-172.9, 63.3)]

def bboxTest : Bbox := ⟨63.35, 63.7, -172.95, -172.55⟩

/-- A catch-all sub region (no bounds, so the defaults match anywhere). -/
def srCatchAll : SubRegion := ⟨none, none, none, none, "norse", "pagan", ["fish"]⟩

/-- A county box containing the (lng = -172.8) column-40 cells of the
fixtures but not the column-41 cells. -/
def countyDublin : County := ⟨"Dublin", 63.4, 63.8, -172.85, -172.7⟩

def cfgTest : Config :=
  ⟨"test", "europe", "british_isles", [srCatchAll], [countyDublin], none, none, none, bboxTest⟩

/-- An existing province with the given id and axial pair and no
geographic coordinate. -/
def oldProv (i : String) (x y : ℤ) : Prov :=
  ⟨i, i, x, y, none, none, "europe", "british_isles", "hills", "unsettled",
   600, 60, ["fish"], "norse", "pagan", 0, 0, 0⟩

/-- A pure (state-independent) terrain capability. -/
def capPure : Option (TerrainArg → Unit → String × Unit) :=
  some (fun _ g => ("hills", g))

/-- The absent capability at state type `Unit` (module import failed). -/
def capNone : Option (TerrainArg → Unit → String × Unit) := none

/-- The shipped capability: `assign_terrain` over the module RNG. -/
def capShipped : Option (TerrainArg → MTState → String × MTState) := some assign_terrain

/-! # Theorems -/

theorem RS.add_def (x y : RS) : x + y = ⟨x.a + y.a, x.b + y.b⟩ := rfl

theorem RS.neg_def (x : RS) : -x = ⟨-x.a, -x.b⟩ := rfl

theorem RS.sub_def (x y : RS) : x - y = ⟨x.a - y.a, x.b - y.b⟩ := rfl

theorem RS.mul_def (x y : RS) :
    x * y = ⟨x.a * y.a + 3 * x.b * y.b, x.a * y.b + x.b * y.a⟩ := rfl

theorem RS.div_def (x y : RS) :
    x / y = ⟨(x.a * y.a - 3 * x.b * y.b) / (y.a ^ 2 - 3 * y.b ^ 2),
             (x.b * y.a - x.a * y.b) / (y.a ^ 2 - 3 * y.b ^ 2)⟩ := rfl

/-- On purely rational values the embedded `<` agrees with the order of
ℚ. -/
theorem RS.blt_rat (p q : ℚ) : RS.blt ⟨p, 0⟩ ⟨q, 0⟩ = decide (p < q) := by
  show RS.pos (⟨q, 0⟩ - ⟨p, 0⟩) = decide (p < q)
  rw [RS.sub_def]
  have e0 : (0 : ℚ) - 0 = 0 := by norm_num
  rw [e0]
  by_cases h : 0 ≤ q - p
  · have h2 : (0 < q - p ∨ 0 < (0 : ℚ)) ↔ p < q := by
      constructor
      · rintro (hlt | hlt) <;> linarith
      · intro hlt; left; linarith
    simp [RS.pos, h, h2]
  · have h2 : ¬ p < q := by intro hlt; exact h (by linarith)
    have h3 : ¬ ((q - p) ^ 2 < 3 * (0 : ℚ) ^ 2) := by
      have h4 := sq_nonneg (q - p)
      intro hcon
      nlinarith
    simp only [RS.pos, h, h2, h3]
    simp [h2]

/-- On purely rational values the embedded floor is the floor of ℚ. -/
theorem RS.floor_rat (q : ℚ) : RS.floor ⟨q, 0⟩ = ⌊q⌋ := by
  show (q.num * (((0 : ℚ).den : ℤ)) + RS.floorMulSqrt3 ((0 : ℚ).num * (q.den : ℤ))).fdiv
      ((q.den : ℤ) * (((0 : ℚ).den : ℤ))) = ⌊q⌋
  have hd : ((0 : ℚ).den : ℤ) = 1 := by norm_num
  have hn : (0 : ℚ).num = 0 := by norm_num
  rw [hd, hn]
  have h0 : RS.floorMulSqrt3 (0 * (q.den : ℤ)) = 0 := by
    simp [RS.floorMulSqrt3, RS.isqrt]
  rw [h0, mul_one, mul_one, add_zero]
  rw [Int.fdiv_eq_ediv _ (by positivity)]
  rw [show ⌊q⌋ = ⌊((q.num : ℚ) / (q.den : ℚ))⌋ by rw [Rat.num_div_den]]
  exact (Rat.floor_intCast_div_natCast q.num q.den).symm

/-- The embedded Python `round` of an exact integer is that integer. -/
theorem RS.pyRound_rat_int (q : ℚ) (n : ℤ) (h : q = (n : ℚ)) :
    RS.pyRound ⟨q, 0⟩ = n := by
  subst h
  have h1 : RS.floor ⟨(n : ℚ), 0⟩ = n := by rw [RS.floor_rat]; exact Int.floor_intCast n
  have h2 : ((⟨(n : ℚ), 0⟩ : RS) + ⟨(n : ℚ), 0⟩) = ⟨(n : ℚ) + (n : ℚ), 0⟩ := by
    rw [RS.add_def]; norm_num
  have h3 : RS.ofInt (2 * n + 1) = ⟨((2 * n + 1 : ℤ) : ℚ), 0⟩ := rfl
  have h4 : ((n : ℚ) + (n : ℚ) < ((2 * n + 1 : ℤ) : ℚ)) := by push_cast; linarith
  simp only [RS.pyRound, h1, h2, h3, RS.blt_rat, h4]
  norm_num

/-- geographic → pixel is the exact inverse of pixel → geographic. -/
theorem lat_lng_pixel_inverse (px py : RS) :
    lat_lng_to_pixel (pixel_to_lat_lng px py).1 (pixel_to_lat_lng px py).2 = (px, py) := by
  obtain ⟨pa, pb⟩ := px
  obtain ⟨qa, qb⟩ := py
  simp only [lat_lng_to_pixel, pixel_to_lat_lng, MAX_LAT, MIN_LNG, MAX_LNG, MIN_LAT,
    WORLD_WIDTH, WORLD_HEIGHT, LAT_SPAN, LNG_SPAN, RS.ofRat, RS.ofInt,
    RS.sub_def, RS.add_def, RS.mul_def, RS.div_def, Prod.mk.injEq, RS.mk.injEq]
  norm_num
  refine ⟨⟨by ring, by ring⟩, by ring, by ring⟩

theorem COL_SPACING_eq : COL_SPACING = ⟨9 / 2, 0⟩ := by
  show HEX_SIZE * RS.ofRat 1.5 = _
  rw [HEX_SIZE, RS.ofInt, RS.ofRat, RS.mul_def]
  norm_num

theorem ROW_SPACING_eq : ROW_SPACING = ⟨0, 3⟩ := by
  show HEX_SIZE * RS.sqrt3 = _
  rw [HEX_SIZE, RS.ofInt, RS.sqrt3, RS.mul_def]
  norm_num

theorem HALF_ROW_eq : HALF_ROW = ⟨0, 3 / 2⟩ := by
  show ROW_SPACING / RS.ofInt 2 = _
  rw [ROW_SPACING_eq, RS.ofInt, RS.div_def]
  norm_num

theorem cellCenter_fst (col row : ℤ) :
    (cellCenter col row).1 = ⟨(col : ℚ) * (9 / 2), 0⟩ := by
  show RS.ofInt col * COL_SPACING = _
  rw [COL_SPACING_eq, RS.ofInt, RS.mul_def]
  norm_num

theorem cellCenter_snd (col row : ℤ) :
    (cellCenter col row).2 =
      ⟨0, (row : ℚ) * 3 + (if col % 2 == 1 then 3 / 2 else 0)⟩ := by
  show RS.ofInt row * ROW_SPACING + (if col % 2 == 1 then HALF_ROW else RS.ofRat 0) = _
  by_cases h : col % 2 == 1 <;>
    simp only [h, if_true, if_false, HALF_ROW_eq, ROW_SPACING_eq, RS.ofInt, RS.ofRat,
      RS.mul_def, RS.add_def] <;> norm_num

theorem pyRound_col (col row : ℤ) :
    RS.pyRound ((cellCenter col row).1 / COL_SPACING) = col := by
  rw [cellCenter_fst, COL_SPACING_eq, RS.div_def]
  norm_num
  exact RS.pyRound_rat_int _ col (by ring)

theorem cellCenter_sub_offset (col row : ℤ) :
    (cellCenter col row).2 - (if col % 2 == 1 then HALF_ROW else RS.ofRat 0) =
      ⟨0, (row : ℚ) * 3⟩ := by
  rw [cellCenter_snd]
  by_cases h : col % 2 == 1 <;>
    simp only [h, if_true, if_false, HALF_ROW_eq, RS.ofRat, RS.sub_def] <;> norm_num

theorem pyRound_row (row : ℤ) :
    RS.pyRound ((⟨0, (row : ℚ) * 3⟩ : RS) / ROW_SPACING) = row := by
  rw [ROW_SPACING_eq, RS.div_def]
  norm_num
  exact RS.pyRound_rat_int _ row (by ring)

/-- C5: for every integer cell within a run's pixel-grid bounding box,
converting the hex-cell centre to geographic coordinates via
`pixel_to_lat_lng` and snapping back via `lat_lng_to_col_row` recovers
exactly the same `(col, row)`; and `lat_lng_to_pixel` is the exact
inverse of `pixel_to_lat_lng`. -/
theorem C5_roundtrip (bbox : Bbox) (col row : ℤ)
    (hc1 : colMin bbox ≤ col) (hc2 : col ≤ colMax bbox)
    (hr1 : rowMin bbox ≤ row) (hr2 : row ≤ rowMax bbox) :
    lat_lng_to_col_row (cellLatLng (col, row)).1 (cellLatLng (col, row)).2 = (col, row) ∧
    ∀ px py : RS,
      lat_lng_to_pixel (pixel_to_lat_lng px py).1 (pixel_to_lat_lng px py).2 = (px, py) := by
  refine ⟨?_, lat_lng_pixel_inverse⟩
  have h1 : lat_lng_to_pixel (cellLatLng (col, row)).1 (cellLatLng (col, row)).2 =
      ((cellCenter col row).1, (cellCenter col row).2) := by
    show lat_lng_to_pixel
        (pixel_to_lat_lng (cellCenter (col, row).1 (col, row).2).1
          (cellCenter (col, row).1 (col, row).2).2).1
        (pixel_to_lat_lng (cellCenter (col, row).1 (col, row).2).1
          (cellCenter (col, row).1 (col, row).2).2).2 = _
    exact lat_lng_pixel_inverse _ _
  show (let px := (lat_lng_to_pixel (cellLatLng (col, row)).1 (cellLatLng (col, row)).2).1
        let py := (lat_lng_to_pixel (cellLatLng (col, row)).1 (cellLatLng (col, row)).2).2
        let c := RS.pyRound (px / COL_SPACING)
        let offset := if c % 2 == 1 then HALF_ROW else RS.ofRat 0
        let r := RS.pyRound ((py - offset) / ROW_SPACING)
        (c, r)) = (col, row)
  rw [h1]
  simp only [pyRound_col, cellCenter_sub_offset, pyRound_row]

/-- Witness for C5 at the fixture box and cell (40, 40). -/
theorem C5_roundtrip_witness :
    (colMin bboxTest ≤ 40 ∧ 40 ≤ colMax bboxTest ∧
     rowMin bboxTest ≤ 40 ∧ 40 ≤ rowMax bboxTest) ∧
    lat_lng_to_col_row (cellLatLng (40, 40)).1 (cellLatLng (40, 40)).2 = (40, 40) :=
  ⟨⟨by with_unfolding_all decide, by with_unfolding_all decide,
    by with_unfolding_all decide, by with_unfolding_all decide⟩,
   (C5_roundtrip bboxTest 40 40 (by with_unfolding_all decide)
     (by with_unfolding_all decide) (by with_unfolding_all decide)
     (by with_unfolding_all decide)).1⟩

/-- Monotonicity of the positivity test in the rational component: if
`a + b√3 > 0` and `a ≤ a2` then `a2 + b√3 > 0`. -/
theorem RS.pos_mono_a {a b a2 : ℚ} (h : RS.pos ⟨a, b⟩ = true) (hle : a ≤ a2) :
    RS.pos ⟨a2, b⟩ = true := by
  simp only [RS.pos] at h ⊢
  by_cases ha : 0 ≤ a
  · have ha2 : 0 ≤ a2 := le_trans ha hle
    by_cases hb : 0 ≤ b
    · simp only [ha, ha2, hb, if_true, decide_eq_true_eq] at h ⊢
      rcases h with h | h
      · exact Or.inl (lt_of_lt_of_le h hle)
      · exact Or.inr h
    · simp only [ha, ha2, hb, if_true, if_false, decide_eq_true_eq] at h ⊢
      nlinarith
  · by_cases hb : 0 ≤ b
    · simp only [ha, hb, if_false, if_true, decide_eq_true_eq] at h
      by_cases ha2 : 0 ≤ a2
      · simp only [ha2, hb, if_true, decide_eq_true_eq]
        right
        rcases lt_or_eq_of_le hb with hb2 | hb2
        · exact hb2
        · exfalso; nlinarith
      · simp only [ha2, hb, if_false, if_true, decide_eq_true_eq]
        nlinarith
    · simp only [ha, hb, if_false] at h
      exact absurd h (by simp)

/-- Weakening an RS lower bound: `q₁ ≤ q₂` and `q₂ ≤ x` give `q₁ ≤ x`. -/
theorem RS.ble_of_rat_le {q1 q2 : ℚ} {x : RS} (hq : q1 ≤ q2)
    (h : RS.ble (RS.ofRat q2) x = true) : RS.ble (RS.ofRat q1) x = true := by
  simp only [RS.ble, RS.blt, RS.ofRat, RS.sub_def, Bool.not_eq_true'] at h ⊢
  by_contra hcon
  rw [Bool.not_eq_false] at hcon
  rw [RS.pos_mono_a hcon (by linarith : q1 - x.a ≤ q2 - x.a)] at h
  exact absurd h (by simp)

/-- Weakening an RS upper bound: `x ≤ q₁` and `q₁ ≤ q₂` give `x ≤ q₂`. -/
theorem RS.ble_rat_le {q1 q2 : ℚ} {x : RS} (hq : q1 ≤ q2)
    (h : RS.ble x (RS.ofRat q1) = true) : RS.ble x (RS.ofRat q2) = true := by
  simp only [RS.ble, RS.blt, RS.ofRat, RS.sub_def, Bool.not_eq_true'] at h ⊢
  by_contra hcon
  rw [Bool.not_eq_false] at hcon
  rw [RS.pos_mono_a hcon (by linarith : x.a - q2 ≤ x.a - q1)] at h
  exact absurd h (by simp)

/-- The scan of `get_sub_region` is `List.find?` over the containment
test. -/
theorem findSubRegion_eq_find? (lat lng : RS) (l : List SubRegion) :
    findSubRegion lat lng l = l.find? (fun sr => subRegionContains lat lng sr) := by
  induction l with
  | nil => rfl
  | cons sr rest ih =>
      by_cases h : subRegionContains lat lng sr
      · simp [findSubRegion, List.find?_cons_of_pos, h]
      · simp only [findSubRegion, if_neg h, ih]
        rw [List.find?_cons_of_neg]
        simpa using h

/-- C6: `get_sub_region` returns the first entry whose box contains the
point, else the last entry of a non-empty table; consequently, when the
first entry's box fully contains the second's, a point inside the second
box still resolves to the first entry. -/
theorem C6_sub_region_first_match :
    (∀ (lat lng : RS) (table : List SubRegion) (h : table ≠ []),
        get_sub_region lat lng table =
          some ((table.find? (fun sr => subRegionContains lat lng sr)).getD
                  (table.getLast h))) ∧
    (∀ (e1 e2 : SubRegion) (lat lng : RS),
        e1.lat_min.getD (-90) ≤ e2.lat_min.getD (-90) →
        e2.lat_max.getD 90 ≤ e1.lat_max.getD 90 →
        e1.lng_min.getD (-180) ≤ e2.lng_min.getD (-180) →
        e2.lng_max.getD 180 ≤ e1.lng_max.getD 180 →
        subRegionContains lat lng e2 = true →
        get_sub_region lat lng [e1, e2] = some e1) := by
  constructor
  · intro lat lng table h
    rw [get_sub_region, findSubRegion_eq_find?]
    cases hf : table.find? (fun sr => subRegionContains lat lng sr) with
    | some sr => rfl
    | none =>
        simp only [Option.getD_none]
        exact List.getLast?_eq_getLast table h
  · intro e1 e2 lat lng h1 h2 h3 h4 hc
    have hc1 : subRegionContains lat lng e1 = true := by
      simp only [subRegionContains, Bool.and_eq_true] at hc ⊢
      obtain ⟨⟨⟨ha, hb⟩, hcℓ⟩, hd⟩ := hc
      exact ⟨⟨⟨RS.ble_of_rat_le h1 ha, RS.ble_rat_le h2 hb⟩, RS.ble_of_rat_le h3 hcℓ⟩,
             RS.ble_rat_le h4 hd⟩
    simp [get_sub_region, findSubRegion, hc1]

/-- Witness for C6: a two-entry table whose first box strictly contains
the second, and a point inside the inner box. -/
theorem C6_sub_region_first_match_witness :
    get_sub_region (RS.ofRat 63) (RS.ofRat 10) [srCatchAll] = some srCatchAll ∧
    get_sub_region (RS.ofRat 63) (RS.ofRat 10)
      [⟨some 50, some 70, some 0, some 20, "c1", "r1", ["g1"]⟩,
       ⟨some 60, some 65, some 5, some 15, "c2", "r2", ["g2"]⟩] =
      some ⟨some 50, some 70, some 0, some 20, "c1", "r1", ["g1"]⟩ := by
  constructor
  · have h := C6_sub_region_first_match.1 (RS.ofRat 63) (RS.ofRat 10) [srCatchAll]
      (by simp [srCatchAll])
    rw [h]
    with_unfolding_all rfl
  · exact C6_sub_region_first_match.2
      ⟨some 50, some 70, some 0, some 20, "c1", "r1", ["g1"]⟩
      ⟨some 60, some 65, some 5, some 15, "c2", "r2", ["g2"]⟩
      (RS.ofRat 63) (RS.ofRat 10)
      (by norm_num) (by norm_num) (by norm_num) (by norm_num)
      (by with_unfolding_all rfl)

/-- C9: the boundary document yields the first feature's geometry for a
FeatureCollection, the feature's geometry for a Feature, and the document
itself otherwise; and for a MultiPolygon the point-in-boundary test is
exactly the logical OR of per-member ray casts on each member's outer
ring (further rings are ignored). -/
theorem C9_boundary_dispatch :
    (∀ (f : GeoFeature) (rest : List GeoFeature),
        selectGeometry (.featureCollection (f :: rest)) = some f.geometry) ∧
    (∀ g : Geometry, selectGeometry (.feature g) = some g) ∧
    (∀ g : Geometry, selectGeometry (.bare g) = some g) ∧
    (∀ (coords : List (List (List (ℚ × ℚ)))) (pip : RS → RS → Bool),
        buildPointInPolygon (.multiPolygon coords) = some pip →
        ∀ lng lat : RS,
          pip lng lat =
            coords.any (fun poly =>
              ray_cast (lng, lat)
                ((outerRing poly).map (fun c => (RS.ofRat c.1, RS.ofRat c.2))))) := by
  refine ⟨fun f rest => rfl, fun g => rfl, fun g => rfl, ?_⟩
  intro coords pip h lng lat
  rw [buildPointInPolygon] at h
  by_cases hall : coords.all (fun poly => !poly.isEmpty)
  · rw [if_pos hall, Option.some.injEq] at h
    rw [← h]
  · rw [if_neg hall] at h
    exact absurd h (by simp)

/-- Witness for C9: on a two-member MultiPolygon the built test accepts a
point inside the first member, computed through the OR-of-ray-casts
characterization. -/
theorem C9_boundary_dispatch_witness :
    ((buildPointInPolygon
        (.multiPolygon [[[(0, 0), (2, 0), (2, 2), (0, 2), (0, 0)]],
                        [[(10, 10), (12, 10), (12, 12), (10, 12), (10, 10)]]])).getD
      (fun _ _ => false)) (RS.ofRat 1) (RS.ofRat 1) = true := by
  have h : buildPointInPolygon
      (.multiPolygon [[[(0, 0), (2, 0), (2, 2), (0, 2), (0, 0)]],
                      [[(10, 10), (12, 10), (12, 12), (10, 12), (10, 10)]]]) =
      some (fun lng lat =>
        [[[((0 : ℚ), (0 : ℚ)), (2, 0), (2, 2), (0, 2), (0, 0)]],
         [[(10, 10), (12, 10), (12, 12), (10, 12), (10, 10)]]].any (fun poly =>
          ray_cast (lng, lat)
            ((outerRing poly).map (fun c => (RS.ofRat c.1, RS.ofRat c.2))))) := by
    rw [buildPointInPolygon]
    rw [if_pos (by rfl)]
  have h2 := C9_boundary_dispatch.2.2.2 _ _ h (RS.ofRat 1) (RS.ofRat 1)
  rw [h]
  show (fun lng lat =>
        [[[((0 : ℚ), (0 : ℚ)), (2, 0), (2, 2), (0, 2), (0, 0)]],
         [[(10, 10), (12, 10), (12, 12), (10, 12), (10, 10)]]].any (fun poly =>
          ray_cast (lng, lat)
            ((outerRing poly).map (fun c => (RS.ofRat c.1, RS.ofRat c.2)))))
      (RS.ofRat 1) (RS.ofRat 1) = true
  exact h2.trans (by with_unfolding_all rfl)

/-- C2: once the generation phase has completed, `generate_provinces`
raises if and only if some new record's terrain type is the placeholder
`"land"` or some new record's trade-goods list is empty; any such error
carries the offending count and first five offending ids, and leaves the
provinces file exactly as it was before the run (removal-list deletions
included, since they are only committed by the write). -/
theorem C2_validator_iff {σ : Type} (cap : Option (TerrainArg → σ → String × σ))
    (boundary : GeoDoc) (provinces0 : List Prov) (cfg : Config)
    (remove_ids : Option (List String)) (dry_run : Bool) (g0 : σ)
    (h : genOk (runGeneration cap boundary provinces0 cfg remove_ids g0) = true) :
    ((∃ e, (generate_provinces cap boundary provinces0 cfg remove_ids dry_run g0).result =
        .error e) ↔
      ((∃ p ∈ newsOf (runGeneration cap boundary provinces0 cfg remove_ids g0),
          p.terrain_type = "land") ∨
       (∃ p ∈ newsOf (runGeneration cap boundary provinces0 cfg remove_ids g0),
          p.trade_goods = []))) ∧
    (∀ e, (generate_provinces cap boundary provinces0 cfg remove_ids dry_run g0).result =
        .error e →
      (generate_provinces cap boundary provinces0 cfg remove_ids dry_run g0).file =
        provinces0 ∧
      (e = .genericTerrain
             ((newsOf (runGeneration cap boundary provinces0 cfg remove_ids g0)).filter
               (fun p => p.terrain_type == "land")).length
             ((((newsOf (runGeneration cap boundary provinces0 cfg remove_ids g0)).filter
               (fun p => p.terrain_type == "land")).map (fun p => p.id)).take 5) ∨
       e = .noGoods
             ((newsOf (runGeneration cap boundary provinces0 cfg remove_ids g0)).filter
               (fun p => p.trade_goods.isEmpty)).length
             ((((newsOf (runGeneration cap boundary provinces0 cfg remove_ids g0)).filter
               (fun p => p.trade_goods.isEmpty)).map (fun p => p.id)).take 5))) := by
  cases hr : runGeneration cap boundary provinces0 cfg remove_ids g0 with
  | error eg => rw [hr] at h; exact absurd h (by simp [genOk])
  | ok s =>
      simp only [generate_provinces, hr]
      by_cases h1 : ((s.new_provinces.filter (fun p => p.terrain_type == "land")).map
          (fun p => p.id)).isEmpty
      · by_cases h2 : ((s.new_provinces.filter (fun p => p.trade_goods.isEmpty)).map
            (fun p => p.id)).isEmpty
        · simp only [h1, h2, if_true, newsOf]
          constructor
          · constructor
            · rintro ⟨e, he⟩; exact absurd he (by simp)
            · rintro (⟨p, hp, hterr⟩ | ⟨p, hp, htg⟩)
              · rw [List.isEmpty_iff, List.map_eq_nil_iff, List.filter_eq_nil_iff] at h1
                exact absurd (by simp [hterr] : (p.terrain_type == "land") = true)
                  (by simpa using h1 p hp)
              · rw [List.isEmpty_iff, List.map_eq_nil_iff, List.filter_eq_nil_iff] at h2
                exact absurd (by simp [htg] : p.trade_goods.isEmpty = true)
                  (by simpa using h2 p hp)
          · intro e he; exact absurd he (by simp)
        · simp only [h1, h2, if_true, if_false, newsOf]
          have hne : s.new_provinces.filter (fun p => p.trade_goods.isEmpty) ≠ [] := by
            intro hnil
            rw [List.isEmpty_iff] at h2
            exact h2 (by simp [hnil])
          constructor
          · constructor
            · intro _
              right
              obtain ⟨p, hp⟩ := List.exists_mem_of_ne_nil _ hne
              rw [List.mem_filter] at hp
              exact ⟨p, hp.1, by simpa [List.isEmpty_iff] using hp.2⟩
            · intro _; exact ⟨.noGoods _ _, rfl⟩
          · intro e he
            refine ⟨rfl, Or.inr ?_⟩
            simpa using he.symm
      · simp only [h1, if_false, newsOf]
        have hne : s.new_provinces.filter (fun p => p.terrain_type == "land") ≠ [] := by
          intro hnil
          rw [List.isEmpty_iff] at h1
          exact h1 (by simp [hnil])
        constructor
        · constructor
          · intro _
            left
            obtain ⟨p, hp⟩ := List.exists_mem_of_ne_nil _ hne
            rw [List.mem_filter] at hp
            exact ⟨p, hp.1, by simpa using hp.2⟩
          · intro _; exact ⟨.genericTerrain _ _, rfl⟩
        · intro e he
          refine ⟨rfl, Or.inl ?_⟩
          simpa using he.symm

set_option maxHeartbeats 2000000 in
/-- Witness for C2: with the terrain capability absent, a one-cell run
generates a `"land"` record, raises the generic-terrain error with count
1 and id `"test_40_40"`, and leaves the (empty) file untouched. -/
theorem C2_validator_iff_witness :
    (generate_provinces capNone (.bare (.polygon [ringOne])) [] cfgTest none false ()).result =
      .error (.genericTerrain 1 ["test_40_40"]) ∧
    (generate_provinces capNone (.bare (.polygon [ringOne])) [] cfgTest none false ()).file =
      [] := by
  have h : genOk (runGeneration capNone (.bare (.polygon [ringOne])) [] cfgTest none ()) =
      true := by with_unfolding_all rfl
  have hmain := C2_validator_iff capNone (.bare (.polygon [ringOne])) [] cfgTest none false () h
  have hres : (generate_provinces capNone (.bare (.polygon [ringOne])) [] cfgTest none false
      ()).result = .error (.genericTerrain 1 ["test_40_40"]) := by
    with_unfolding_all rfl
  exact ⟨hres, (hmain.2 (.genericTerrain 1 ["test_40_40"]) hres).1⟩

/-- C10: with `dry_run` the file is never written (and the loaded
collection not extended) while removal, generation and both guards still
run — the result is identical to the non-dry run's result; without
`dry_run` the file changes only on success, to the post-removal
collection extended by the full new batch. -/
theorem C10_dry_run_frame {σ : Type} (cap : Option (TerrainArg → σ → String × σ))
    (boundary : GeoDoc) (provinces0 : List Prov) (cfg : Config)
    (remove_ids : Option (List String)) (g0 : σ) :
    (generate_provinces cap boundary provinces0 cfg remove_ids true g0).file = provinces0 ∧
    (generate_provinces cap boundary provinces0 cfg remove_ids true g0).result =
      (generate_provinces cap boundary provinces0 cfg remove_ids false g0).result ∧
    (∀ e, (generate_provinces cap boundary provinces0 cfg remove_ids false g0).result =
        .error e →
      (generate_provinces cap boundary provinces0 cfg remove_ids false g0).file = provinces0) ∧
    (∀ news, (generate_provinces cap boundary provinces0 cfg remove_ids false g0).result =
        .ok news →
      (generate_provinces cap boundary provinces0 cfg remove_ids false g0).file =
        provincesAfterRemoval provinces0 remove_ids ++ news) := by
  cases hr : runGeneration cap boundary provinces0 cfg remove_ids g0 with
  | error eg =>
      refine ⟨?_, ?_, ?_, ?_⟩ <;> simp [generate_provinces, hr]
  | ok s =>
      by_cases h1 : ((s.new_provinces.filter (fun p => p.terrain_type == "land")).map
          (fun p => p.id)).isEmpty
      · by_cases h2 : ((s.new_provinces.filter (fun p => p.trade_goods.isEmpty)).map
            (fun p => p.id)).isEmpty
        · refine ⟨?_, ?_, ?_, ?_⟩ <;> simp [generate_provinces, hr, h1, h2]
        · refine ⟨?_, ?_, ?_, ?_⟩ <;> simp [generate_provinces, hr, h1, h2]
      · refine ⟨?_, ?_, ?_, ?_⟩ <;> simp [generate_provinces, hr, h1]

set_option maxHeartbeats 4000000 in
/-- Witness for C10: a four-cell run with a removal list; the dry run
leaves the file as loaded, the wet run writes the post-removal
collection plus the new batch. -/
theorem C10_dry_run_frame_witness :
    (generate_provinces capPure (.bare (.polygon [ringQuad]))
        [oldProv "keep" 100 100, oldProv "gone" 101 101] cfgTest (some ["gone"]) true
        ()).file =
      [oldProv "keep" 100 100, oldProv "gone" 101 101] ∧
    (generate_provinces capPure (.bare (.polygon [ringQuad]))
        [oldProv "keep" 100 100, oldProv "gone" 101 101] cfgTest (some ["gone"]) false
        ()).file =
      provincesAfterRemoval [oldProv "keep" 100 100, oldProv "gone" 101 101]
          (some ["gone"]) ++
        newsOf (runGeneration capPure (.bare (.polygon [ringQuad]))
          [oldProv "keep" 100 100, oldProv "gone" 101 101] cfgTest (some ["gone"]) ()) := by
  have hthm := C10_dry_run_frame capPure (.bare (.polygon [ringQuad]))
    [oldProv "keep" 100 100, oldProv "gone" 101 101] cfgTest (some ["gone"]) ()
  refine ⟨hthm.1, hthm.2.2.2 _ ?_⟩
  with_unfolding_all rfl

/-- Inversion for one step of the cell loop: either the cell is skipped
and the state is unchanged, or the cell emits and every component of the
new state (and of the new record) is determined. -/
theorem cellStep_ok_inv {σ : Type} {cap : Option (TerrainArg → σ → String × σ)} {cfg : Config}
    {pip : RS → RS → Bool} {s s' : LoopState σ} {cell : ℤ × ℤ}
    (h : cellStep cap cfg pip s cell = .ok s') :
    (wouldEmit pip s.occupied cell = false ∧ s' = s) ∨
    (wouldEmit pip s.occupied cell = true ∧ ∃ sr prov,
       get_sub_region (cellLatLng cell).1 (cellLatLng cell).2 cfg.sub_regions = some sr ∧
       s' = { occupied := insert cell s.occupied
              existing_axial :=
                insert ((if ((axialOf cell).1, (axialOf cell).2) ∈ s.existing_axial
                    then (axialOf cell).1 + 1 else (axialOf cell).1), (axialOf cell).2)
                  s.existing_axial
              county_counts := fun nm =>
                if nm = get_county_name (cellLatLng cell).1 (cellLatLng cell).2 cfg.county_map
                then s.county_counts nm + 1 else s.county_counts nm
              g := (match cap with
                    | some f => f ⟨some cfg.region, some cfg.continent,
                        some (cfg.default_tier.getD "unsettled")⟩ s.g
                    | none => ("land", s.g)).2
              new_provinces := s.new_provinces ++ [prov] } ∧
       prov.id = mkProvId cfg.idPrefix cell.1 cell.2 ∧
       prov.x = (if ((axialOf cell).1, (axialOf cell).2) ∈ s.existing_axial
           then (axialOf cell).1 + 1 else (axialOf cell).1) ∧
       prov.y = (axialOf cell).2 ∧
       prov.name =
         (if s.county_counts
              (get_county_name (cellLatLng cell).1 (cellLatLng cell).2 cfg.county_map) + 1 = 1
          then get_county_name (cellLatLng cell).1 (cellLatLng cell).2 cfg.county_map
          else get_county_name (cellLatLng cell).1 (cellLatLng cell).2 cfg.county_map ++ " " ++
               toString (s.county_counts
                 (get_county_name (cellLatLng cell).1 (cellLatLng cell).2 cfg.county_map) + 1))) := by
  by_cases hw : wouldEmit pip s.occupied cell = true
  · rw [cellStep.eq_def, if_pos hw] at h
    dsimp only [] at h
    cases hsr : get_sub_region (cellLatLng cell).1 (cellLatLng cell).2 cfg.sub_regions with
    | none => rw [hsr] at h; exact absurd h (by simp)
    | some sr =>
        rw [hsr] at h
        simp only [if_true, Except.ok.injEq] at h
        subst h
        right
        exact ⟨hw, sr, _, rfl, rfl, rfl, rfl, rfl, rfl⟩
  · left
    rw [Bool.not_eq_true] at hw
    rw [cellStep.eq_def, if_neg (by simp [hw])] at h
    simp only [Except.ok.injEq] at h
    exact ⟨hw, h.symm⟩

theorem except_bind_ok {α β γ : Type} {x : Except α β} {g : β → Except α γ} {r : γ}
    (h : (x >>= g) = .ok r) : ∃ mid, x = .ok mid ∧ g mid = .ok r := by
  cases x with
  | error e => exact absurd h (by simp [Bind.bind, Except.bind])
  | ok v => exact ⟨v, rfl, h⟩

theorem wouldEmit_not_mem {pip : RS → RS → Bool} {occ : Finset (ℤ × ℤ)} {cell : ℤ × ℤ}
    (h : wouldEmit pip occ cell = true) : cell ∉ occ := by
  simp only [wouldEmit, Bool.and_eq_true, Bool.not_eq_true', decide_eq_false_iff_not] at h
  exact h.1.1

/-- Invariant of the generation loop: the records appended by a
successful fold correspond one-to-one (id and name included) to a
sublist of the visited cells, those cells are pairwise distinct and
initially unoccupied, and the occupied set grows by exactly them. -/
theorem foldGen_inv {σ : Type} (cap : Option (TerrainArg → σ → String × σ)) (cfg : Config)
    (pip : RS → RS → Bool) :
    ∀ (l : List (ℤ × ℤ)) (s0 s1 : LoopState σ),
      l.foldlM (cellStep cap cfg pip) s0 = .ok s1 →
      ∃ (cells : List (ℤ × ℤ)) (recs : List Prov),
        cells.Sublist l ∧
        s1.new_provinces = s0.new_provinces ++ recs ∧
        recs.map (fun p => p.id) = cells.map (fun c => mkProvId cfg.idPrefix c.1 c.2) ∧
        s1.occupied = s0.occupied ∪ cells.toFinset ∧
        List.Pairwise (fun a b => a ≠ b) cells ∧
        (∀ c ∈ cells, c ∉ s0.occupied) ∧
        recs.map (fun p => p.name) =
          dedupNames s0.county_counts
            (cells.map (fun c =>
              get_county_name (cellLatLng c).1 (cellLatLng c).2 cfg.county_map)) := by
  intro l
  induction l with
  | nil =>
      intro s0 s1 h
      simp only [List.foldlM_nil] at h
      have hs : s0 = s1 := by simpa [pure, Except.pure] using h
      subst hs
      exact ⟨[], [], List.Sublist.refl _, by simp, rfl, by simp, by simp, by simp, rfl⟩
  | cons c rest ih =>
      intro s0 s1 h
      rw [List.foldlM_cons] at h
      obtain ⟨mid, hstep, hrest⟩ := except_bind_ok h
      rcases cellStep_ok_inv hstep with ⟨hw, rfl⟩ | ⟨hw, sr, prov, hsr, hs', hid, hx, hy, hname⟩
      · obtain ⟨cells, recs, hsub, hnew, hids, hocc, hpw, hnotin, hnames⟩ := ih _ s1 hrest
        exact ⟨cells, recs, hsub.cons c, hnew, hids, hocc, hpw, hnotin, hnames⟩
      · subst hs'
        obtain ⟨cells, recs, hsub, hnew, hids, hocc, hpw, hnotin, hnames⟩ := ih _ s1 hrest
        have hcnot : c ∉ s0.occupied := wouldEmit_not_mem hw
        have hcellsnot : ∀ b ∈ cells, b ≠ c ∧ b ∉ s0.occupied := by
          intro b hb
          have hbn := hnotin b hb
          simp only [Finset.mem_insert, not_or] at hbn
          exact hbn
        refine ⟨c :: cells, prov :: recs, hsub.cons₂ c, ?_, ?_, ?_, ?_, ?_, ?_⟩
        · rw [hnew]; simp
        · simp only [List.map_cons, hids, hid]
        · rw [hocc]
          simp [Finset.insert_union, List.toFinset_cons]
        · rw [List.pairwise_cons]
          exact ⟨fun b hb => ((hcellsnot b hb).1).symm, hpw⟩
        · intro b hb
          rcases List.mem_cons.mp hb with rfl | hb2
          · exact hcnot
          · exact (hcellsnot b hb2).2
        · simp only [List.map_cons, dedupNames, hname, hnames]

/-- A successful generation phase is a successful cell fold from the
initial state (post-removal occupancy and axial sets, zero counters). -/
theorem runGeneration_ok_fold {σ : Type} {cap : Option (TerrainArg → σ → String × σ)}
    {boundary : GeoDoc} {provinces0 : List Prov} {cfg : Config}
    {remove_ids : Option (List String)} {g0 : σ} {s : LoopState σ}
    (h : runGeneration cap boundary provinces0 cfg remove_ids g0 = .ok s) :
    ∃ pip, (cellList cfg.bbox).foldlM (cellStep cap cfg pip)
        { occupied := initialOccupied (provincesAfterRemoval provinces0 remove_ids)
          existing_axial := initialAxial (provincesAfterRemoval provinces0 remove_ids)
          county_counts := fun _ => 0
          g := g0
          new_provinces := [] } = .ok s := by
  rw [runGeneration.eq_def] at h
  dsimp only [] at h
  cases hsel : selectGeometry boundary with
  | none => rw [hsel] at h; exact absurd h (by simp)
  | some geom =>
      rw [hsel] at h
      dsimp only [] at h
      cases hpip : buildPointInPolygon geom with
      | none => rw [hpip] at h; dsimp only [] at h; exact absurd h (by simp)
      | some pip => rw [hpip] at h; dsimp only [] at h; exact ⟨pip, h⟩

theorem mem_initialOccupied_aux (c : ℤ × ℤ) :
    ∀ (l : List Prov) (acc : Finset (ℤ × ℤ)),
      (c ∈ l.foldl (fun acc p =>
          match p.lat, p.lng with
          | some la, some ln => insert (lat_lng_to_col_row (RS.ofRat la) (RS.ofRat ln)) acc
          | _, _ => acc) acc) ↔
        (c ∈ acc ∨ ∃ p ∈ l, ∃ la ln : ℚ, p.lat = some la ∧ p.lng = some ln ∧
          c = lat_lng_to_col_row (RS.ofRat la) (RS.ofRat ln)) := by
  intro l
  induction l with
  | nil => intro acc; simp
  | cons p rest ih =>
      intro acc
      rw [List.foldl_cons]
      cases hla : p.lat with
      | none =>
          rw [ih]
          constructor
          · rintro (hacc | hr)
            · exact Or.inl hacc
            · obtain ⟨p2, hp2, rest2⟩ := hr
              exact Or.inr ⟨p2, List.mem_cons_of_mem _ hp2, rest2⟩
          · rintro (hacc | ⟨p2, hp2, la, ln, hla2, hln2, hc⟩)
            · exact Or.inl hacc
            · rcases List.mem_cons.mp hp2 with rfl | hp3
              · rw [hla] at hla2; exact absurd hla2 (by simp)
              · exact Or.inr ⟨p2, hp3, la, ln, hla2, hln2, hc⟩
      | some la =>
          cases hln : p.lng with
          | none =>
              rw [ih]
              constructor
              · rintro (hacc | hr)
                · exact Or.inl hacc
                · obtain ⟨p2, hp2, rest2⟩ := hr
                  exact Or.inr ⟨p2, List.mem_cons_of_mem _ hp2, rest2⟩
              · rintro (hacc | ⟨p2, hp2, la2, ln2, hla2, hln2, hc⟩)
                · exact Or.inl hacc
                · rcases List.mem_cons.mp hp2 with rfl | hp3
                  · rw [hln] at hln2; exact absurd hln2 (by simp)
                  · exact Or.inr ⟨p2, hp3, la2, ln2, hla2, hln2, hc⟩
          | some ln =>
              rw [ih]
              constructor
              · rintro (hacc | hr)
                · rcases Finset.mem_insert.mp hacc with rfl | hacc2
                  · exact Or.inr ⟨p, List.mem_cons_self _ _, la, ln, hla, hln, rfl⟩
                  · exact Or.inl hacc2
                · obtain ⟨p2, hp2, rest2⟩ := hr
                  exact Or.inr ⟨p2, List.mem_cons_of_mem _ hp2, rest2⟩
              · rintro (hacc | ⟨p2, hp2, la2, ln2, hla2, hln2, hc⟩)
                · exact Or.inl (Finset.mem_insert_of_mem hacc)
                · rcases List.mem_cons.mp hp2 with rfl | hp3
                  · rw [hla] at hla2
                    rw [hln] at hln2
                    rw [Option.some.injEq] at hla2 hln2
                    subst hla2; subst hln2
                    exact Or.inl (by rw [hc]; exact Finset.mem_insert_self _ _)
                  · exact Or.inr ⟨p2, hp3, la2, ln2, hla2, hln2, hc⟩

/-- Membership in the occupied-cell set: exactly the snapped cells of
the records that have both coordinates. -/
theorem mem_initialOccupied (l : List Prov) (c : ℤ × ℤ) :
    c ∈ initialOccupied l ↔ ∃ p ∈ l, ∃ la ln : ℚ, p.lat = some la ∧ p.lng = some ln ∧
      c = lat_lng_to_col_row (RS.ofRat la) (RS.ofRat ln) := by
  rw [initialOccupied, mem_initialOccupied_aux]
  simp

theorem mem_initialAxial_aux (c : ℤ × ℤ) :
    ∀ (l : List Prov) (acc : Finset (ℤ × ℤ)),
      (c ∈ l.foldl (fun acc p => insert (p.x, p.y) acc) acc) ↔
        (c ∈ acc ∨ ∃ p ∈ l, c = (p.x, p.y)) := by
  intro l
  induction l with
  | nil => intro acc; simp
  | cons p rest ih =>
      intro acc
      rw [List.foldl_cons, ih]
      constructor
      · rintro (hacc | hr)
        · rcases Finset.mem_insert.mp hacc with rfl | hacc2
          · exact Or.inr ⟨p, List.mem_cons_self _ _, rfl⟩
          · exact Or.inl hacc2
        · obtain ⟨p2, hp2, rest2⟩ := hr
          exact Or.inr ⟨p2, List.mem_cons_of_mem _ hp2, rest2⟩
      · rintro (hacc | ⟨p2, hp2, hc⟩)
        · exact Or.inl (Finset.mem_insert_of_mem hacc)
        · rcases List.mem_cons.mp hp2 with rfl | hp3
          · exact Or.inl (by rw [hc]; exact Finset.mem_insert_self _ _)
          · exact Or.inr ⟨p2, hp3, hc⟩

/-- Membership in the `existing_axial` start set: exactly the `(x, y)`
of the (post-removal) provinces. -/
theorem mem_initialAxial (l : List Prov) (c : ℤ × ℤ) :
    c ∈ initialAxial l ↔ ∃ p ∈ l, c = (p.x, p.y) := by
  rw [initialAxial, mem_initialAxial_aux]
  simp

/-- C8: the occupancy set is the image of the post-removal records that
have both coordinates under the pixel-grid snap, and the generated
records sit on pairwise-distinct cells disjoint from it. -/
theorem C8_occupancy {σ : Type} (cap : Option (TerrainArg → σ → String × σ))
    (boundary : GeoDoc) (provinces0 : List Prov) (cfg : Config)
    (remove_ids : Option (List String)) (g0 : σ)
    (h : genOk (runGeneration cap boundary provinces0 cfg remove_ids g0) = true) :
    (∀ c : ℤ × ℤ, c ∈ initialOccupied (provincesAfterRemoval provinces0 remove_ids) ↔
        ∃ p ∈ provincesAfterRemoval provinces0 remove_ids, ∃ la ln : ℚ,
          p.lat = some la ∧ p.lng = some ln ∧
          c = lat_lng_to_col_row (RS.ofRat la) (RS.ofRat ln)) ∧
    ∃ cells : List (ℤ × ℤ),
      (newsOf (runGeneration cap boundary provinces0 cfg remove_ids g0)).map (fun p => p.id) =
        cells.map (fun c => mkProvId cfg.idPrefix c.1 c.2) ∧
      List.Pairwise (fun a b => a ≠ b) cells ∧
      ∀ c ∈ cells, c ∉ initialOccupied (provincesAfterRemoval provinces0 remove_ids) := by
  refine ⟨fun c => mem_initialOccupied _ c, ?_⟩
  cases hr : runGeneration cap boundary provinces0 cfg remove_ids g0 with
  | error eg => rw [hr] at h; exact absurd h (by simp [genOk])
  | ok s =>
      obtain ⟨pip, hfold⟩ := runGeneration_ok_fold hr
      obtain ⟨cells, recs, hsub, hnew, hids, hocc, hpw, hnotin, hnames⟩ :=
        foldGen_inv cap cfg pip _ _ _ hfold
      refine ⟨cells, ?_, hpw, hnotin⟩
      show s.new_provinces.map (fun p => p.id) = _
      rw [hnew, List.nil_append, hids]

theorem intRange_pairwise (lo hi : ℤ) : List.Pairwise (fun a b : ℤ => a < b) (intRange lo hi) := by
  rw [intRange, List.pairwise_map]
  refine (List.pairwise_lt_range _).imp ?_
  intro a b hab
  show lo + (a : ℤ) < lo + (b : ℤ)
  omega

theorem flatMap_pairwise_colMajor (rows : List ℤ) (hrows : List.Pairwise (fun a b : ℤ => a < b) rows) :
    ∀ cols : List ℤ, List.Pairwise (fun a b : ℤ => a < b) cols →
      List.Pairwise colMajorLT (cols.flatMap (fun col => rows.map (fun row => (col, row)))) := by
  intro cols
  induction cols with
  | nil => intro _; simp
  | cons c cs ih =>
      intro hcols
      rw [List.flatMap_cons, List.pairwise_append]
      rw [List.pairwise_cons] at hcols
      refine ⟨?_, ih hcols.2, ?_⟩
      · rw [List.pairwise_map]
        exact hrows.imp (fun hr => Or.inr ⟨rfl, hr⟩)
      · intro a ha b hb
        obtain ⟨r, hr, rfl⟩ := List.mem_map.mp ha
        obtain ⟨c2, hc2, hb2⟩ := List.mem_flatMap.mp hb
        obtain ⟨r2, hr2, rfl⟩ := List.mem_map.mp hb2
        exact Or.inl (hcols.1 c2 hc2)

theorem cellList_pairwise (bbox : Bbox) : List.Pairwise colMajorLT (cellList bbox) :=
  flatMap_pairwise_colMajor _ (intRange_pairwise _ _) _ (intRange_pairwise _ _)

/-- C4 (amended): the emitted records correspond in order to a sublist
of the visited rectangle, which the loop walks column-first; hence the
record sequence is sorted by column, then by row within a column — not
row-major. -/
theorem C4_column_major_order {σ : Type} (cap : Option (TerrainArg → σ → String × σ))
    (boundary : GeoDoc) (provinces0 : List Prov) (cfg : Config)
    (remove_ids : Option (List String)) (g0 : σ)
    (h : genOk (runGeneration cap boundary provinces0 cfg remove_ids g0) = true) :
    ∃ cells : List (ℤ × ℤ),
      cells.Sublist (cellList cfg.bbox) ∧
      (newsOf (runGeneration cap boundary provinces0 cfg remove_ids g0)).map (fun p => p.id) =
        cells.map (fun c => mkProvId cfg.idPrefix c.1 c.2) ∧
      List.Pairwise colMajorLT cells := by
  cases hr : runGeneration cap boundary provinces0 cfg remove_ids g0 with
  | error eg => rw [hr] at h; exact absurd h (by simp [genOk])
  | ok s =>
      obtain ⟨pip, hfold⟩ := runGeneration_ok_fold hr
      obtain ⟨cells, recs, hsub, hnew, hids, hocc, hpw, hnotin, hnames⟩ :=
        foldGen_inv cap cfg pip _ _ _ hfold
      refine ⟨cells, hsub, ?_, (cellList_pairwise cfg.bbox).sublist hsub⟩
      show s.new_provinces.map (fun p => p.id) = _
      rw [hnew, List.nil_append, hids]

theorem get_county_name_eq_find? (lat lng : RS) (cmap : List County) :
    get_county_name lat lng cmap =
      ((cmap.find? (fun c => countyContains lat lng c)).map (fun c => c.name)).getD
        "Unknown" := by
  induction cmap with
  | nil => rfl
  | cons c rest ih =>
      by_cases hc : countyContains lat lng c
      · simp [get_county_name, List.find?_cons_of_pos, hc]
      · rw [get_county_name, if_neg hc, ih, List.find?_cons_of_neg]
        simpa using hc

/-- C7: `get_county_name` returns the first containing county's name
(else `"Unknown"`), and the records of a run carry the per-run
de-duplicated display names — name on first resolution, `name ++ " " ++
n` on the n-th — starting from a fresh zero counter each invocation. -/
theorem C7_county_names {σ : Type} (cap : Option (TerrainArg → σ → String × σ))
    (boundary : GeoDoc) (provinces0 : List Prov) (cfg : Config)
    (remove_ids : Option (List String)) (g0 : σ)
    (h : genOk (runGeneration cap boundary provinces0 cfg remove_ids g0) = true) :
    (∀ (lat lng : RS) (cmap : List County),
        get_county_name lat lng cmap =
          ((cmap.find? (fun c => countyContains lat lng c)).map (fun c => c.name)).getD
            "Unknown") ∧
    ∃ cells : List (ℤ × ℤ),
      (newsOf (runGeneration cap boundary provinces0 cfg remove_ids g0)).map (fun p => p.id) =
        cells.map (fun c => mkProvId cfg.idPrefix c.1 c.2) ∧
      (newsOf (runGeneration cap boundary provinces0 cfg remove_ids g0)).map (fun p => p.name) =
        dedupNames (fun _ => 0)
          (cells.map (fun c =>
            get_county_name (cellLatLng c).1 (cellLatLng c).2 cfg.county_map)) := by
  refine ⟨get_county_name_eq_find?, ?_⟩
  cases hr : runGeneration cap boundary provinces0 cfg remove_ids g0 with
  | error eg => rw [hr] at h; exact absurd h (by simp [genOk])
  | ok s =>
      obtain ⟨pip, hfold⟩ := runGeneration_ok_fold hr
      obtain ⟨cells, recs, hsub, hnew, hids, hocc, hpw, hnotin, hnames⟩ :=
        foldGen_inv cap cfg pip _ _ _ hfold
      refine ⟨cells, ?_, ?_⟩
      · show s.new_provinces.map (fun p => p.id) = _
        rw [hnew, List.nil_append, hids]
      · show s.new_provinces.map (fun p => p.name) = _
        rw [hnew, List.nil_append, hnames]

set_option maxHeartbeats 4000000 in
/-- Counterexample to C4 as stated: a four-cell run emits ids for cells
(40,40), (40,41), (41,40), (41,41) in that (column-first) order, and
that cell sequence is not ordered first by row and then by column —
row-major order would put (41,40) before (40,41). -/
theorem C4_counterexample :
    (newsOf (runGeneration capPure (.bare (.polygon [ringQuad])) [] cfgTest none ())).map
        (fun p => p.id) =
      [mkProvId "test" 40 40, mkProvId "test" 40 41, mkProvId "test" 41 40,
       mkProvId "test" 41 41] ∧
    ¬ List.Pairwise rowMajorLE [((40 : ℤ), (40 : ℤ)), (40, 41), (41, 40), (41, 41)] :=
  ⟨by with_unfolding_all rfl, by decide⟩

set_option maxHeartbeats 4000000 in
/-- Witness for the amended C4 on the four-cell fixture run. -/
theorem C4_column_major_order_witness :
    genOk (runGeneration capPure (.bare (.polygon [ringQuad])) [] cfgTest none ()) = true ∧
    (∃ cells : List (ℤ × ℤ),
      cells.Sublist (cellList cfgTest.bbox) ∧
      (newsOf (runGeneration capPure (.bare (.polygon [ringQuad])) [] cfgTest none ())).map
          (fun p => p.id) =
        cells.map (fun c => mkProvId cfgTest.idPrefix c.1 c.2) ∧
      List.Pairwise colMajorLT cells) :=
  ⟨by with_unfolding_all rfl,
   C4_column_major_order capPure (.bare (.polygon [ringQuad])) [] cfgTest none ()
     (by with_unfolding_all rfl)⟩

set_option maxHeartbeats 4000000 in
/-- Witness for C8: one existing province occupies cell (40,40), so the
run emits the other three cells, pairwise distinct and disjoint from the
occupied set. -/
theorem C8_occupancy_witness :
    genOk (runGeneration capPure (.bare (.polygon [ringQuad]))
        [⟨"occupier", "occupier", 7, 7, some (63.6862 : ℚ), some (-172.8 : ℚ), "europe",
          "british_isles", "hills", "unsettled", 600, 60, ["fish"], "norse", "pagan",
          0, 0, 0⟩] cfgTest none ()) = true ∧
    (∃ cells : List (ℤ × ℤ),
      (newsOf (runGeneration capPure (.bare (.polygon [ringQuad]))
          [⟨"occupier", "occupier", 7, 7, some (63.6862 : ℚ), some (-172.8 : ℚ), "europe",
            "british_isles", "hills", "unsettled", 600, 60, ["fish"], "norse", "pagan",
            0, 0, 0⟩] cfgTest none ())).map (fun p => p.id) =
        cells.map (fun c => mkProvId cfgTest.idPrefix c.1 c.2) ∧
      List.Pairwise (fun a b => a ≠ b) cells ∧
      ∀ c ∈ cells, c ∉ initialOccupied (provincesAfterRemoval
          [⟨"occupier", "occupier", 7, 7, some (63.6862 : ℚ), some (-172.8 : ℚ), "europe",
            "british_isles", "hills", "unsettled", 600, 60, ["fish"], "norse", "pagan",
            0, 0, 0⟩] none)) :=
  ⟨by with_unfolding_all rfl,
   (C8_occupancy capPure (.bare (.polygon [ringQuad]))
     [⟨"occupier", "occupier", 7, 7, some (63.6862 : ℚ), some (-172.8 : ℚ), "europe",
       "british_isles", "hills", "unsettled", 600, 60, ["fish"], "norse", "pagan",
       0, 0, 0⟩] cfgTest none () (by with_unfolding_all rfl)).2⟩

set_option maxHeartbeats 4000000 in
/-- Witness for C7 on the four-cell fixture run (two cells resolve to
"Dublin", two to "Unknown", so the names are "Dublin", "Dublin 2",
"Unknown", "Unknown 2"). -/
theorem C7_county_names_witness :
    genOk (runGeneration capPure (.bare (.polygon [ringQuad])) [] cfgTest none ()) = true ∧
    (newsOf (runGeneration capPure (.bare (.polygon [ringQuad])) [] cfgTest none ())).map
        (fun p => p.name) = ["Dublin", "Dublin 2", "Unknown", "Unknown 2"] ∧
    (∃ cells : List (ℤ × ℤ),
      (newsOf (runGeneration capPure (.bare (.polygon [ringQuad])) [] cfgTest none ())).map
          (fun p => p.id) =
        cells.map (fun c => mkProvId cfgTest.idPrefix c.1 c.2) ∧
      (newsOf (runGeneration capPure (.bare (.polygon [ringQuad])) [] cfgTest none ())).map
          (fun p => p.name) =
        dedupNames (fun _ => 0)
          (cells.map (fun c =>
            get_county_name (cellLatLng c).1 (cellLatLng c).2 cfgTest.county_map))) :=
  ⟨by with_unfolding_all rfl, by with_unfolding_all rfl,
   (C7_county_names capPure (.bare (.polygon [ringQuad])) [] cfgTest none ()
     (by with_unfolding_all rfl)).2⟩

theorem cellStepChk_ok_inv {σ : Type} {cap : Option (TerrainArg → σ → String × σ)} {cfg : Config}
    {pip : RS → RS → Bool} {sb sb' : LoopState σ × Bool} {cell : ℤ × ℤ}
    (h : cellStepChk cap cfg pip sb cell = .ok sb') :
    cellStep cap cfg pip sb.1 cell = .ok sb'.1 ∧
    sb'.2 = (sb.2 && shiftOkAt pip sb.1 cell) := by
  rw [cellStepChk] at h
  cases hs : cellStep cap cfg pip sb.1 cell with
  | error e => rw [hs] at h; exact absurd h (by simp [Except.map])
  | ok s2 =>
      rw [hs] at h
      simp only [Except.map, Except.ok.injEq] at h
      rw [← h]
      exact ⟨rfl, rfl⟩

theorem foldChk_proj {σ : Type} (cap : Option (TerrainArg → σ → String × σ)) (cfg : Config)
    (pip : RS → RS → Bool) :
    ∀ (l : List (ℤ × ℤ)) (sb sb' : LoopState σ × Bool),
      l.foldlM (cellStepChk cap cfg pip) sb = .ok sb' →
      l.foldlM (cellStep cap cfg pip) sb.1 = .ok sb'.1 := by
  intro l
  induction l with
  | nil =>
      intro sb sb' h
      simp only [List.foldlM_nil] at h ⊢
      have : sb = sb' := by simpa [pure, Except.pure] using h
      rw [this]
      rfl
  | cons c rest ih =>
      intro sb sb' h
      rw [List.foldlM_cons] at h ⊢
      obtain ⟨mid, hstep, hrest⟩ := except_bind_ok h
      obtain ⟨hstep1, _⟩ := cellStepChk_ok_inv hstep
      rw [hstep1]
      exact ih mid sb' hrest

/-- Axial-set invariant of the checked loop: the `(x, y)` pairs of the
appended records extend the axial set, and when every visited cell was
clear of the unchecked-shift hazard they are pairwise distinct and
disjoint from the starting set. -/
theorem foldChk_axial {σ : Type} (cap : Option (TerrainArg → σ → String × σ)) (cfg : Config)
    (pip : RS → RS → Bool) :
    ∀ (l : List (ℤ × ℤ)) (s0 : LoopState σ) (b0 : Bool) (s1 : LoopState σ) (b1 : Bool),
      l.foldlM (cellStepChk cap cfg pip) (s0, b0) = .ok (s1, b1) →
      ∃ pairs : List (ℤ × ℤ),
        s1.new_provinces.map (fun p => (p.x, p.y)) =
          s0.new_provinces.map (fun p => (p.x, p.y)) ++ pairs ∧
        s1.existing_axial = s0.existing_axial ∪ pairs.toFinset ∧
        (b1 = true → b0 = true ∧ List.Pairwise (fun a b => a ≠ b) pairs ∧
          ∀ pr ∈ pairs, pr ∉ s0.existing_axial) := by
  intro l
  induction l with
  | nil =>
      intro s0 b0 s1 b1 h
      simp only [List.foldlM_nil] at h
      have hsb : (s0, b0) = (s1, b1) := by simpa [pure, Except.pure] using h
      rw [Prod.mk.injEq] at hsb
      obtain ⟨rfl, rfl⟩ := hsb
      exact ⟨[], by simp, by simp, fun hb => ⟨hb, by simp, by simp⟩⟩
  | cons c rest ih =>
      intro s0 b0 s1 b1 h
      rw [List.foldlM_cons] at h
      obtain ⟨mid, hstep, hrest⟩ := except_bind_ok h
      obtain ⟨mids, midb⟩ := mid
      obtain ⟨hstep1, hflag⟩ := cellStepChk_ok_inv hstep
      dsimp only [] at hstep1 hflag
      rcases cellStep_ok_inv hstep1 with ⟨hw, rfl⟩ | ⟨hw, sr, prov, hsr, hs', hid, hx, hy, hname⟩
      · obtain ⟨pairs, hmap, hax, hflags⟩ := ih _ _ _ _ hrest
        refine ⟨pairs, hmap, hax, fun hb1 => ?_⟩
        obtain ⟨hmidb, hpw, hnot⟩ := hflags hb1
        rw [hflag] at hmidb
        exact ⟨(Bool.and_eq_true _ _ |>.mp hmidb).1, hpw, hnot⟩
      · subst hs'
        obtain ⟨pairs, hmap, hax, hflags⟩ := ih _ _ _ _ hrest
        refine ⟨((if ((axialOf c).1, (axialOf c).2) ∈ s0.existing_axial
            then (axialOf c).1 + 1 else (axialOf c).1), (axialOf c).2) :: pairs, ?_, ?_, ?_⟩
        · rw [hmap]
          simp only [List.map_append, List.map_cons, List.map_nil]
          rw [List.append_assoc]
          congr 1
          simp [hx, hy]
        · rw [hax]
          simp [Finset.insert_union, List.toFinset_cons]
        · intro hb1
          obtain ⟨hmidb, hpw, hnot⟩ := hflags hb1
          rw [hflag] at hmidb
          obtain ⟨hb0, hok⟩ := Bool.and_eq_true _ _ |>.mp hmidb
          have hchosen : ((if ((axialOf c).1, (axialOf c).2) ∈ s0.existing_axial
              then (axialOf c).1 + 1 else (axialOf c).1), (axialOf c).2) ∉
              s0.existing_axial := by
            simp only [shiftOkAt, hw, Bool.not_true, Bool.false_or, Bool.or_eq_true,
              Bool.not_eq_true', decide_eq_false_iff_not] at hok
            by_cases hpre : ((axialOf c).1, (axialOf c).2) ∈ s0.existing_axial
            · rw [if_pos hpre]
              rcases hok with hok1 | hok2
              · exact absurd (by simpa using hpre) hok1
              · simpa using hok2
            · rw [if_neg hpre]
              simpa using hpre
          have hpairsnot : ∀ pr ∈ pairs,
              pr ≠ ((if ((axialOf c).1, (axialOf c).2) ∈ s0.existing_axial
                then (axialOf c).1 + 1 else (axialOf c).1), (axialOf c).2) ∧
              pr ∉ s0.existing_axial := by
            intro pr hpr
            have := hnot pr hpr
            simp only [Finset.mem_insert, not_or] at this
            exact this
          refine ⟨hb0, ?_, ?_⟩
          · rw [List.pairwise_cons]
            exact ⟨fun pr hpr => ((hpairsnot pr hpr).1).symm, hpw⟩
          · intro pr hpr
            rcases List.mem_cons.mp hpr with rfl | hpr2
            · exact hchosen
            · exact (hpairsnot pr hpr2).2

/-- A successful checked generation phase projects to a successful plain
generation phase and is itself a checked fold from the initial state. -/
theorem runGenerationChk_structure {σ : Type} {cap : Option (TerrainArg → σ → String × σ)}
    {boundary : GeoDoc} {provinces0 : List Prov} {cfg : Config}
    {remove_ids : Option (List String)} {g0 : σ} {sb : LoopState σ × Bool}
    (h : runGenerationChk cap boundary provinces0 cfg remove_ids g0 = .ok sb) :
    runGeneration cap boundary provinces0 cfg remove_ids g0 = .ok sb.1 ∧
    ∃ pip, (cellList cfg.bbox).foldlM (cellStepChk cap cfg pip)
        ({ occupied := initialOccupied (provincesAfterRemoval provinces0 remove_ids)
           existing_axial := initialAxial (provincesAfterRemoval provinces0 remove_ids)
           county_counts := fun _ => 0
           g := g0
           new_provinces := [] }, true) = .ok sb := by
  rw [runGenerationChk.eq_def] at h
  dsimp only [] at h
  cases hsel : selectGeometry boundary with
  | none => rw [hsel] at h; dsimp only [] at h; exact absurd h (by simp)
  | some geom =>
      rw [hsel] at h
      dsimp only [] at h
      cases hpip : buildPointInPolygon geom with
      | none => rw [hpip] at h; dsimp only [] at h; exact absurd h (by simp)
      | some pip =>
          rw [hpip] at h
          dsimp only [] at h
          constructor
          · rw [runGeneration.eq_def]
            dsimp only []
            rw [hsel]
            dsimp only []
            rw [hpip]
            dsimp only []
            exact foldChk_proj cap cfg pip _ _ _ h
          · exact ⟨pip, h⟩

/-- C1 (amended): provided every axial collision's single `q + 1` shift
lands on a pair not already in use — checked per visited cell by
`runGenerationChk` — no two newly generated records share an `(x, y)`
pair and none collides with a pre-existing (post-removal) province's
`(x, y)`; and unconditionally, the only collision handling is a single
unchecked increment of `q` by one. -/
theorem C1_axial_uniqueness {σ : Type} (cap : Option (TerrainArg → σ → String × σ))
    (boundary : GeoDoc) (provinces0 : List Prov) (cfg : Config)
    (remove_ids : Option (List String)) (g0 : σ)
    (hchk : chkPassed (runGenerationChk cap boundary provinces0 cfg remove_ids g0) = true) :
    (List.Pairwise (fun a b => a ≠ b)
       ((newsOf (runGeneration cap boundary provinces0 cfg remove_ids g0)).map
         (fun p => (p.x, p.y))) ∧
     ∀ p ∈ newsOf (runGeneration cap boundary provinces0 cfg remove_ids g0),
       (p.x, p.y) ∉ initialAxial (provincesAfterRemoval provinces0 remove_ids)) ∧
    (∀ (pip : RS → RS → Bool) (s s' : LoopState σ) (cell : ℤ × ℤ) (prov : Prov),
       cellStep cap cfg pip s cell = .ok s' →
       s'.new_provinces = s.new_provinces ++ [prov] →
       prov.x = (if ((axialOf cell).1, (axialOf cell).2) ∈ s.existing_axial
           then (axialOf cell).1 + 1 else (axialOf cell).1) ∧
       prov.y = (axialOf cell).2) := by
  constructor
  · cases hchkr : runGenerationChk cap boundary provinces0 cfg remove_ids g0 with
    | error eg => rw [hchkr] at hchk; exact absurd hchk (by simp [chkPassed])
    | ok sb =>
        rw [hchkr] at hchk
        obtain ⟨s, b⟩ := sb
        have hb : b = true := by simpa [chkPassed] using hchk
        subst hb
        obtain ⟨hrun, pip, hfold⟩ := runGenerationChk_structure hchkr
        obtain ⟨pairs, hmap, hax, hflags⟩ := foldChk_axial cap cfg pip _ _ _ _ _ hfold
        obtain ⟨_, hpw, hnot⟩ := hflags rfl
        rw [hrun]
        dsimp only [newsOf] at hmap ⊢
        rw [List.map_nil, List.nil_append] at hmap
        constructor
        · rw [hmap]; exact hpw
        · intro p hp
          have : (p.x, p.y) ∈ pairs := by
            rw [← hmap]
            exact List.mem_map_of_mem _ hp
          exact hnot _ this
  · intro pip s s' cell prov hstep hnew
    rcases cellStep_ok_inv hstep with ⟨_, rfl⟩ | ⟨_, sr, prov2, _, hs', _, hx, hy, _⟩
    · exact absurd (congrArg List.length hnew) (by simp)
    · subst hs'
      dsimp only [] at hnew
      have h2 : [prov2] = [prov] := List.append_cancel_left hnew
      rw [List.cons.injEq] at h2
      rw [← h2.1]
      exact ⟨hx, hy⟩

set_option maxHeartbeats 4000000 in
/-- Counterexample to C1 as stated: with pre-existing axial pairs
(40, 20) and (41, 20), the single cell (40, 40) computes axial (40, 20),
collides, is shifted once to (41, 20) without re-checking — and that
pair equals a pre-existing province's `(x, y)`. -/
theorem C1_counterexample :
    (newsOf (runGeneration capPure (.bare (.polygon [ringOne]))
        [oldProv "old1" 40 20, oldProv "old2" 41 20] cfgTest none ())).map
        (fun p => (p.x, p.y)) = [((41 : ℤ), (20 : ℤ))] ∧
    ((41 : ℤ), (20 : ℤ)) ∈ (provincesAfterRemoval
        [oldProv "old1" 40 20, oldProv "old2" 41 20] none).map (fun p => (p.x, p.y)) :=
  ⟨by with_unfolding_all rfl, by with_unfolding_all decide⟩

set_option maxHeartbeats 4000000 in
/-- Witness for the amended C1: with only (40, 20) pre-existing, the
single shift resolves the collision (the checker passes) and the new
record's (41, 20) is unique and disjoint from the store. -/
theorem C1_axial_uniqueness_witness :
    chkPassed (runGenerationChk capPure (.bare (.polygon [ringOne]))
        [oldProv "old1" 40 20] cfgTest none ()) = true ∧
    (List.Pairwise (fun a b => a ≠ b)
       ((newsOf (runGeneration capPure (.bare (.polygon [ringOne]))
           [oldProv "old1" 40 20] cfgTest none ())).map (fun p => (p.x, p.y))) ∧
     ∀ p ∈ newsOf (runGeneration capPure (.bare (.polygon [ringOne]))
         [oldProv "old1" 40 20] cfgTest none ()),
       (p.x, p.y) ∉ initialAxial (provincesAfterRemoval [oldProv "old1" 40 20] none)) :=
  ⟨by with_unfolding_all rfl,
   (C1_axial_uniqueness capPure (.bare (.polygon [ringOne])) [oldProv "old1" 40 20]
     cfgTest none () (by with_unfolding_all rfl)).1⟩

/-- With a state-independent capability, one loop step from two states
differing only in the capability state yields the same error or states
again differing only in the capability state. -/
theorem cellStep_pure_rel {σ : Type} {cap : Option (TerrainArg → σ → String × σ)}
    (hpure : ∀ f, cap = some f → ∀ t (u v : σ), (f t u).1 = (f t v).1)
    (cfg : Config) (pip : RS → RS → Bool)
    (oc : Finset (ℤ × ℤ)) (ax : Finset (ℤ × ℤ)) (cc : String → ℕ) (np : List Prov)
    (sg tg : σ) (cell : ℤ × ℤ) :
    (∃ e, cellStep cap cfg pip ⟨oc, ax, cc, sg, np⟩ cell = .error (e, sg) ∧
          cellStep cap cfg pip ⟨oc, ax, cc, tg, np⟩ cell = .error (e, tg)) ∨
    (∃ oc2 ax2 cc2 np2 sg2 tg2,
       cellStep cap cfg pip ⟨oc, ax, cc, sg, np⟩ cell = .ok ⟨oc2, ax2, cc2, sg2, np2⟩ ∧
       cellStep cap cfg pip ⟨oc, ax, cc, tg, np⟩ cell = .ok ⟨oc2, ax2, cc2, tg2, np2⟩) := by
  by_cases hw : wouldEmit pip oc cell = true
  · cases hsr : get_sub_region (cellLatLng cell).1 (cellLatLng cell).2 cfg.sub_regions with
    | none =>
        left
        refine ⟨.emptySubRegions, ?_, ?_⟩ <;>
          (rw [cellStep.eq_def, if_pos hw]; dsimp only []; rw [hsr])
    | some sr =>
        right
        have hterr : (match cap with
            | some f => f ⟨some cfg.region, some cfg.continent,
                some (cfg.default_tier.getD "unsettled")⟩ sg
            | none => ("land", sg)).1 =
          (match cap with
            | some f => f ⟨some cfg.region, some cfg.continent,
                some (cfg.default_tier.getD "unsettled")⟩ tg
            | none => ("land", tg)).1 := by
          cases cap with
          | none => rfl
          | some f => exact hpure f rfl _ sg tg
        refine ⟨insert cell oc,
          insert ((if ((axialOf cell).1, (axialOf cell).2) ∈ ax
              then (axialOf cell).1 + 1 else (axialOf cell).1), (axialOf cell).2) ax,
          (fun nm => if nm = get_county_name (cellLatLng cell).1 (cellLatLng cell).2
              cfg.county_map then cc nm + 1 else cc nm),
          np ++ [{ id := mkProvId cfg.idPrefix cell.1 cell.2
                   name := if cc (get_county_name (cellLatLng cell).1 (cellLatLng cell).2
                         cfg.county_map) + 1 = 1
                     then get_county_name (cellLatLng cell).1 (cellLatLng cell).2 cfg.county_map
                     else get_county_name (cellLatLng cell).1 (cellLatLng cell).2
                         cfg.county_map ++ " " ++
                       toString (cc (get_county_name (cellLatLng cell).1 (cellLatLng cell).2
                         cfg.county_map) + 1)
                   x := if ((axialOf cell).1, (axialOf cell).2) ∈ ax
                     then (axialOf cell).1 + 1 else (axialOf cell).1
                   y := (axialOf cell).2
                   lat := some (RS.pyRound4 (cellLatLng cell).1)
                   lng := some (RS.pyRound4 (cellLatLng cell).2)
                   continent := cfg.continent
                   region := cfg.region
                   terrain_type := (match cap with
                     | some f => f ⟨some cfg.region, some cfg.continent,
                         some (cfg.default_tier.getD "unsettled")⟩ sg
                     | none => ("land", sg)).1
                   settlement_tier := cfg.default_tier.getD "unsettled"
                   population := cfg.default_population.getD 600
                   wealth := cfg.default_wealth.getD 60
                   trade_goods := sr.trade_goods
                   owner_culture := sr.culture
                   owner_religion := sr.religion
                   development_progress := 0
                   months_at_tier := 0
                   development_invested := 0 }],
          (match cap with
           | some f => f ⟨some cfg.region, some cfg.continent,
               some (cfg.default_tier.getD "unsettled")⟩ sg
           | none => ("land", sg)).2,
          (match cap with
           | some f => f ⟨some cfg.region, some cfg.continent,
               some (cfg.default_tier.getD "unsettled")⟩ tg
           | none => ("land", tg)).2, ?_, ?_⟩
        · rw [cellStep.eq_def, if_pos hw]
          dsimp only []
          rw [hsr]
          simp only [if_true]
        · rw [cellStep.eq_def, if_pos hw]
          dsimp only []
          rw [hsr]
          simp only [if_true]
          rw [← hterr]
  · have hw2 : wouldEmit pip oc cell = false := by simpa using hw
    right
    refine ⟨oc, ax, cc, np, sg, tg, ?_, ?_⟩ <;> rw [cellStep.eq_def, if_neg (by simp [hw2])]

/-- The loop relation lifted to the whole fold. -/
theorem foldGen_pure_rel {σ : Type} {cap : Option (TerrainArg → σ → String × σ)}
    (hpure : ∀ f, cap = some f → ∀ t (u v : σ), (f t u).1 = (f t v).1)
    (cfg : Config) (pip : RS → RS → Bool) :
    ∀ (l : List (ℤ × ℤ)) (oc ax : Finset (ℤ × ℤ)) (cc : String → ℕ) (np : List Prov)
      (sg tg : σ),
      (∃ e gs gt, l.foldlM (cellStep cap cfg pip) ⟨oc, ax, cc, sg, np⟩ = .error (e, gs) ∧
                  l.foldlM (cellStep cap cfg pip) ⟨oc, ax, cc, tg, np⟩ = .error (e, gt)) ∨
      (∃ s t, l.foldlM (cellStep cap cfg pip) ⟨oc, ax, cc, sg, np⟩ = .ok s ∧
              l.foldlM (cellStep cap cfg pip) ⟨oc, ax, cc, tg, np⟩ = .ok t ∧
              s.new_provinces = t.new_provinces) := by
  intro l
  induction l with
  | nil =>
      intro oc ax cc np sg tg
      right
      exact ⟨_, _, rfl, rfl, rfl⟩
  | cons c rest ih =>
      intro oc ax cc np sg tg
      rw [List.foldlM_cons, List.foldlM_cons]
      rcases cellStep_pure_rel hpure cfg pip oc ax cc np sg tg c with
        ⟨e, h1, h2⟩ | ⟨oc2, ax2, cc2, np2, sg2, tg2, h1, h2⟩
      · left
        rw [h1, h2]
        exact ⟨e, sg, tg, rfl, rfl⟩
      · rw [h1, h2]
        exact ih oc2 ax2 cc2 np2 sg2 tg2

/-- The relation lifted to the generation phase. -/
theorem runGeneration_pure_rel {σ : Type} {cap : Option (TerrainArg → σ → String × σ)}
    (hpure : ∀ f, cap = some f → ∀ t (u v : σ), (f t u).1 = (f t v).1)
    (boundary : GeoDoc) (provinces0 : List Prov) (cfg : Config)
    (remove_ids : Option (List String)) (g0 g1 : σ) :
    (∃ e gs gt, runGeneration cap boundary provinces0 cfg remove_ids g0 = .error (e, gs) ∧
                runGeneration cap boundary provinces0 cfg remove_ids g1 = .error (e, gt)) ∨
    (∃ s t, runGeneration cap boundary provinces0 cfg remove_ids g0 = .ok s ∧
            runGeneration cap boundary provinces0 cfg remove_ids g1 = .ok t ∧
            s.new_provinces = t.new_provinces) := by
  rw [runGeneration.eq_def, runGeneration.eq_def]
  dsimp only []
  cases hsel : selectGeometry boundary with
  | none => exact Or.inl ⟨.noFeature, g0, g1, rfl, rfl⟩
  | some geom =>
      dsimp only []
      cases hpip : buildPointInPolygon geom with
      | none => exact Or.inl ⟨.badGeometry, g0, g1, rfl, rfl⟩
      | some pip =>
          dsimp only []
          exact foldGen_pure_rel hpure cfg pip (cellList cfg.bbox) _ _ _ _ g0 g1

/-- C3 (amended): with a state-independent terrain capability the run's
result and written file do not depend on the capability state at all; in
particular two consecutive invocations within one process (the second
starting from the first's final state) produce identical output. -/
theorem C3_determinism_pure {σ : Type} (cap : Option (TerrainArg → σ → String × σ))
    (hpure : ∀ f, cap = some f → ∀ t (u v : σ), (f t u).1 = (f t v).1)
    (boundary : GeoDoc) (provinces0 : List Prov) (cfg : Config)
    (remove_ids : Option (List String)) (dry_run : Bool) (g0 g1 : σ) :
    ((generate_provinces cap boundary provinces0 cfg remove_ids dry_run g0).result =
       (generate_provinces cap boundary provinces0 cfg remove_ids dry_run g1).result ∧
     (generate_provinces cap boundary provinces0 cfg remove_ids dry_run g0).file =
       (generate_provinces cap boundary provinces0 cfg remove_ids dry_run g1).file) ∧
    ((generate_provinces cap boundary provinces0 cfg remove_ids dry_run g0).result =
       (generate_provinces cap boundary provinces0 cfg remove_ids dry_run
         (generate_provinces cap boundary provinces0 cfg remove_ids dry_run g0).gFinal).result ∧
     (generate_provinces cap boundary provinces0 cfg remove_ids dry_run g0).file =
       (generate_provinces cap boundary provinces0 cfg remove_ids dry_run
         (generate_provinces cap boundary provinces0 cfg remove_ids dry_run g0).gFinal).file) := by
  have main : ∀ ga gb : σ,
      (generate_provinces cap boundary provinces0 cfg remove_ids dry_run ga).result =
        (generate_provinces cap boundary provinces0 cfg remove_ids dry_run gb).result ∧
      (generate_provinces cap boundary provinces0 cfg remove_ids dry_run ga).file =
        (generate_provinces cap boundary provinces0 cfg remove_ids dry_run gb).file := by
    intro ga gb
    rcases runGeneration_pure_rel hpure boundary provinces0 cfg remove_ids ga gb with
      ⟨e, gs, gt, h1, h2⟩ | ⟨s, t, h1, h2, hnp⟩
    · rw [generate_provinces, h1, generate_provinces, h2]
      exact ⟨rfl, rfl⟩
    · rw [generate_provinces, h1, generate_provinces, h2]
      dsimp only []
      rw [hnp]
      refine ⟨?_, ?_⟩ <;> (split
                           · split <;> rfl
                           · rfl)
  exact ⟨main g0 g1, main g0 _⟩

/-- Witness for the amended C3: the pure capability yields identical
results from two different capability states, including the consecutive
composition. -/
theorem C3_determinism_pure_witness :
    (generate_provinces capPure (.bare (.polygon [ringOne])) [] cfgTest none false ()).result =
      (generate_provinces capPure (.bare (.polygon [ringOne])) [] cfgTest none false
        (generate_provinces capPure (.bare (.polygon [ringOne])) [] cfgTest none false
          ()).gFinal).result :=
  ((C3_determinism_pure capPure (fun f hf t u v => by
      rw [capPure, Option.some.injEq] at hf) (.bare (.polygon [ringOne])) [] cfgTest
      none false () ()).2).1

set_option maxHeartbeats 8000000 in
set_option maxRecDepth 10000 in
/-- Counterexample to C3 as stated: with the shipped `assign_terrain`
(module RNG seeded once), the first run draws 82 → "bog" while the
second run, continuing the same RNG stream, draws 15 → "hills"; the two
runs return different records. -/
theorem C3_counterexample :
    (generate_provinces capShipped (.bare (.polygon [ringOne])) [] cfgTest none false
        seededState).result =
      .ok [⟨"test_40_40", "Dublin", 40, 20, some (318431 / 5000 : ℚ), some (-864 / 5 : ℚ),
        "europe", "british_isles", "bog", "unsettled", 600, 60, ["fish"], "norse", "pagan",
        0, 0, 0⟩] ∧
    (generate_provinces capShipped (.bare (.polygon [ringOne])) [] cfgTest none false
        (generate_provinces capShipped (.bare (.polygon [ringOne])) [] cfgTest none false
          seededState).gFinal).result =
      .ok [⟨"test_40_40", "Dublin", 40, 20, some (318431 / 5000 : ℚ), some (-864 / 5 : ℚ),
        "europe", "british_isles", "hills", "unsettled", 600, 60, ["fish"], "norse", "pagan",
        0, 0, 0⟩] ∧
    ¬ ((⟨"test_40_40", "Dublin", 40, 20, some (318431 / 5000 : ℚ), some (-864 / 5 : ℚ),
        "europe", "british_isles", "bog", "unsettled", 600, 60, ["fish"], "norse", "pagan",
        0, 0, 0⟩ : Prov) =
       ⟨"test_40_40", "Dublin", 40, 20, some (318431 / 5000 : ℚ), some (-864 / 5 : ℚ),
        "europe", "british_isles", "hills", "unsettled", 600, 60, ["fish"], "norse", "pagan",
        0, 0, 0⟩) :=
  ⟨by with_unfolding_all rfl, by with_unfolding_all rfl, by simp⟩
